import Mathlib

/-!
# The xv6 physical page allocator and trap dispatcher

A shallow embedding of `kernel/kalloc.c`, `kernel/trap.c` and `printint` of
`kernel/printf.c`.
Physical memory is a byte-addressed map; pointers and 64-bit registers are natural
numbers, with explicit reduction modulo `2 ^ 64` wherever the source computes on them.
-/

namespace Xv6

/-! ## Memory -/

/-- Bytes per page: `PGSIZE` of riscv.h (kalloc.c: "Allocates whole 4096-byte pages"). -/
def PGSIZE : Nat := 4096

/-- Number of values of a `uint64`. -/
def W64 : Nat := 2 ^ 64

/-- Byte-addressed physical memory. -/
abbrev Mem := Nat → Nat

/-- The library routine `memset(dst, c, n)`: `n` bytes from `dst` become `(unsigned char)c`. -/
def memset (m : Mem) (dst c n : Nat) : Mem :=
  fun a => if dst ≤ a ∧ a < dst + n then c % 256 else m a

/-- Read of a `struct run *` (8 bytes, little endian) at address `p`: `r->next`. -/
def load64 (m : Mem) (p : Nat) : Nat :=
  m p % 256 + (m (p + 1) % 256) * 256 ^ 1 + (m (p + 2) % 256) * 256 ^ 2
    + (m (p + 3) % 256) * 256 ^ 3 + (m (p + 4) % 256) * 256 ^ 4
    + (m (p + 5) % 256) * 256 ^ 5 + (m (p + 6) % 256) * 256 ^ 6
    + (m (p + 7) % 256) * 256 ^ 7

/-- Write of a `struct run *` (8 bytes, little endian) at address `p`: `r->next = v`. -/
def store64 (m : Mem) (p v : Nat) : Mem :=
  fun a => if p ≤ a ∧ a < p + 8 then (v / 256 ^ (a - p)) % 256 else m a

/-- How a kernel routine ends: it returns, or `panic` halts the machine. Either way the
state reached is recorded. -/
inductive Run (σ : Type) where
  | done (s : σ) : Run σ
  | panic (msg : String) (s : σ) : Run σ

/-! ## kalloc.c -/

/-- The two link-time constants of kalloc.c: `end` (first address after the kernel,
kernel.ld) and `PHYSTOP` (memlayout.h). -/
structure Layout where
  end_ : Nat
  PHYSTOP : Nat

/-- The allocator state `kmem`, together with the memory its links live in. -/
structure Kmem where
  mem : Mem
  freelist : Nat

/-- The guard of `kfree`:
`((uint64)pa % PGSIZE) != 0 || (char*)pa < end || (uint64)pa >= PHYSTOP`. -/
def kfreeBad (L : Layout) (pa : Nat) : Prop :=
  pa % PGSIZE ≠ 0 ∨ pa < L.end_ ∨ pa ≥ L.PHYSTOP

instance (L : Layout) (pa : Nat) : Decidable (kfreeBad L pa) := by
  unfold kfreeBad; infer_instance

/-- The frame after `memset(pa, 1, PGSIZE)` in `kfree`, before it is linked. -/
def kfreeFill (pa : Nat) (k : Kmem) : Kmem :=
  { k with mem := memset k.mem pa 1 PGSIZE }

/-- The critical section of `kfree`: `r->next = kmem.freelist; kmem.freelist = r`. -/
def kfreeLink (pa : Nat) (k : Kmem) : Kmem :=
  { mem := store64 k.mem pa k.freelist, freelist := pa }

/-- `kfree(pa)`. -/
def kfree (L : Layout) (pa : Nat) (k : Kmem) : Run Kmem :=
  if kfreeBad L pa then Run.panic "kfree" k
  else Run.done (kfreeLink pa (kfreeFill pa k))

/-- `kalloc()`: the pointer returned and the state left. -/
def kalloc (k : Kmem) : Nat × Kmem :=
  let r := k.freelist
  let k1 : Kmem := if r ≠ 0 then { k with freelist := load64 k.mem r } else k
  let k2 : Kmem := if r ≠ 0 then { k1 with mem := memset k1.mem r 5 PGSIZE } else k1
  (r, k2)

/-- Modelled from the spec: `PGROUNDUP` is a macro of riscv.h, which is not among the
sources; `init` "registers every frame-aligned address" from `kernel_image_end` on, so the
start is rounded up to the next frame boundary, in `uint64` arithmetic. -/
def PGROUNDUP (sz : Nat) : Nat :=
  let x := (sz + PGSIZE - 1) % W64
  x - x % PGSIZE

/-- The loop of `freerange`, `for(; p + PGSIZE <= pa_end; p += PGSIZE) kfree(p);`, with
the list of addresses handed to `kfree`. `none` means the fuel ran out. -/
def freerangeLoop (L : Layout) (pa_end : Nat) : Nat → Nat → Kmem → Option (List Nat × Run Kmem)
  | 0, _, _ => none
  | fuel + 1, p, k =>
    if (p + PGSIZE) % W64 ≤ pa_end then
      match kfree L p k with
      | Run.done k1 =>
        (freerangeLoop L pa_end fuel ((p + PGSIZE) % W64) k1).map (fun tr => (p :: tr.1, tr.2))
      | Run.panic msg k1 => some ([p], Run.panic msg k1)
    else some ([], Run.done k)

/-- `freerange(pa_start, pa_end)`. -/
def freerange (L : Layout) (fuel pa_start pa_end : Nat) (k : Kmem) :
    Option (List Nat × Run Kmem) :=
  freerangeLoop L pa_end fuel (PGROUNDUP pa_start) k

/-- `kinit()`: `freerange(end, (void*)PHYSTOP)`. -/
def kinit (L : Layout) (fuel : Nat) (k : Kmem) : Option (List Nat × Run Kmem) :=
  freerange L fuel L.end_ L.PHYSTOP k

/-- Value of a C `int` after an arithmetic result `x` is stored in it (two's complement). -/
def toInt32 (x : Int) : Int := (x + 2 ^ 31) % 2 ^ 32 - 2 ^ 31

/-- Conversion of an `int` to the `uint64` return type. -/
def intToU64 (x : Int) : Nat := (x % 2 ^ 64).toNat

/-- The loop of `freemem`, `while (r) { cnt++; r = r->next; }`, on the `int` counter. -/
def freememLoop (m : Mem) : Nat → Nat → Int → Option Int
  | 0, _, _ => none
  | fuel + 1, r, cnt =>
    if r ≠ 0 then freememLoop m fuel (load64 m r) (toInt32 (cnt + 1)) else some cnt

/-- `freemem()`: the value returned (`cnt *= PGSIZE`, as `uint64`) and the state left. -/
def freemem (fuel : Nat) (k : Kmem) : Option (Nat × Kmem) :=
  (freememLoop k.mem fuel k.freelist 0).map
    (fun cnt => (intToU64 (toInt32 (cnt * (PGSIZE : Int))), k))

/-- The frames of a free list: following `next` from `p` visits exactly `l`, then null. -/
def Chain (m : Mem) : Nat → List Nat → Prop
  | p, [] => p = 0
  | p, a :: l => p ≠ 0 ∧ p = a ∧ Chain m (load64 m a) l

instance Chain.dec (m : Mem) : (p : Nat) → (l : List Nat) → Decidable (Chain m p l)
  | p, [] => by unfold Chain; infer_instance
  | p, a :: l => by
    unfold Chain
    have := Chain.dec m (load64 m a) l
    infer_instance

/-- A frame address that `kfree` accepts. -/
def isFrame (L : Layout) (pa : Nat) : Prop :=
  pa % PGSIZE = 0 ∧ L.end_ ≤ pa ∧ pa < L.PHYSTOP

instance (L : Layout) (pa : Nat) : Decidable (isFrame L pa) := by
  unfold isFrame; infer_instance

/-- An allocator with nothing registered: a null list head over whatever memory holds. -/
def emptyKmem (m : Mem) : Kmem := { mem := m, freelist := 0 }

/-- A call made by a client of the allocator. -/
inductive Op where
  | alloc : Op
  | free (pa : Nat) : Op

/-- Why a sequence of calls stopped early. -/
inductive Stop where
  /-- the client freed a frame it does not hold -/
  | notHeld (pa : Nat) : Stop
  /-- `kfree` panicked -/
  | panic (msg : String) : Stop

/-- A sequence of `kalloc`/`kfree` calls run from state `k` by a client that holds the
frames `held` (those `kalloc` returned and it has not freed since). A `free` of a frame
that is not held is outside the protocol and stops the run. -/
def runOps (L : Layout) : List Op → Kmem → List Nat → Except Stop (Kmem × List Nat)
  | [], k, held => Except.ok (k, held)
  | Op.alloc :: ops, k, held =>
    runOps L ops (kalloc k).2 (if (kalloc k).1 = 0 then held else (kalloc k).1 :: held)
  | Op.free pa :: ops, k, held =>
    if pa ∈ held then
      match kfree L pa k with
      | Run.done k1 => runOps L ops k1 (held.erase pa)
      | Run.panic msg _ => Except.error (Stop.panic msg)
    else Except.error (Stop.notHeld pa)

/-- The allocator invariant for a client holding `held`, over the registered frames
`reg`: the free list is a duplicate-free chain of exactly the registered frames that are
not held. -/
def Good (reg : List Nat) (k : Kmem) (held : List Nat) : Prop :=
  k.freelist < W64 ∧ held.Nodup ∧ (∀ a, a ∈ held → a ∈ reg) ∧
    ∃ l, Chain k.mem k.freelist l ∧ l.Nodup ∧ ∀ a, a ∈ l ↔ a ∈ reg ∧ a ∉ held

/-- Memory holding zero everywhere. -/
def zeroMem : Mem := fun _ => 0

/-- A small machine: the kernel image ends at 4096 and physical memory at 16384, which
leaves three frames. -/
def sampleLayout : Layout := { end_ := 4096, PHYSTOP := 16384 }

/-- The allocator of `sampleLayout` after `kfree` of its three frames in ascending order. -/
def sampleKmem : Kmem :=
  kfreeLink 12288 (kfreeFill 12288 (kfreeLink 8192 (kfreeFill 8192
    (kfreeLink 4096 (kfreeFill 4096 (emptyKmem zeroMem))))))

/-- A memory in which the link word of every frame holds the address of the frame after
it, as long as that one lies below `top`, and null otherwise. -/
def ladderMem (top : Nat) : Mem :=
  fun a =>
    let f := a - a % PGSIZE
    let nxt := if f + PGSIZE < top then f + PGSIZE else 0
    if a % PGSIZE < 8 then (nxt / 256 ^ (a % PGSIZE)) % 256 else 0

/-- The `n` consecutive frames from `p` on. -/
def ladder : Nat → Nat → List Nat
  | 0, _ => []
  | n + 1, p => p :: ladder n (p + PGSIZE)

/-! ## trap.c -/

/-- Modelled from the spec: `enum procstate` of proc.h, which is not among the sources
("`state` (enum including at least RUNNING)"). -/
inductive procstate where
  | UNUSED | SLEEPING | RUNNABLE | RUNNING | ZOMBIE
  deriving DecidableEq, Repr

/-- Modelled from the spec: `struct trapframe` of proc.h, which is not among the sources:
the kernel-resume fields written on the way out, the saved user pc, and the saved user
registers `ra` .. `t6`. -/
structure trapframe where
  kernel_satp : Nat
  kernel_sp : Nat
  kernel_trap : Nat
  epc : Nat
  kernel_hartid : Nat
  uregs : List Nat

/-- Modelled from the spec: the fields of `struct proc` (proc.h, not among the sources)
that trap.c touches. -/
structure proc where
  state : procstate
  killed : Int
  pid : Int
  kstack : Nat
  pagetable : Nat
  trapframe : trapframe

/-- What one hart sees: the supervisor registers trap.c reads and writes, the global
`ticks`, and the current process (`curproc` says whether `myproc()` is non-null; `p` is
the `struct proc` it points to). -/
structure Hart where
  sstatus : Nat
  stvec : Nat
  sepc : Nat
  scause : Nat
  stval : Nat
  sip : Nat
  satp : Nat
  tp : Nat
  ticks : Nat
  curproc : Bool
  p : proc

/-- The fields of a trap frame that trap.c stores to. -/
inductive TfField where
  | kernel_satp | kernel_sp | kernel_trap | kernel_hartid | epc
  deriving DecidableEq, Repr

/-- The observable actions of the trap code, in program order: register and trap-frame
stores, and calls to routines outside trap.c. -/
inductive Event where
  | w_stvec (v : Nat)
  | w_sstatus (v : Nat)
  | w_sepc (v : Nat)
  | w_sip (v : Nat)
  | tfStore (f : TfField) (v : Nat)
  | setKilled (v : Int)
  | intr_on
  | intr_off
  | syscall
  | exit (status : Int)
  | yield
  | usertrapret
  | userret (fn a0 a1 : Nat)
  | plic_claim (irq : Int)
  | plic_complete (irq : Int)
  | uartintr
  | virtio_disk_intr
  | ticksInc
  | wakeup
  | printf (fmt : String) (args : List Int)
  deriving DecidableEq, Repr

/-- A hart together with the actions performed so far (oldest first). -/
structure World where
  h : Hart
  trace : List Event

/-- How a trap routine ends. -/
inductive Outcome where
  /-- the routine returned to its caller -/
  | returned
  /-- `panic(msg)` -/
  | panicked (msg : String)
  /-- `exit(status)`, which does not return -/
  | exited (status : Int)
  /-- the jump into the trampoline, back to user space -/
  | touser
  /-- a collaborator did not return (a system call that exits) -/
  | noreturn
  /-- a null `myproc()` was dereferenced -/
  | fault
  deriving DecidableEq, Repr

/-- Everything trap.c takes from elsewhere: addresses and constants of memlayout.h and
the linker, the macro `MAKE_SATP`, and the routines it calls, as functions of the hart
state. -/
structure Env where
  kernelvec : Nat
  usertrapAddr : Nat
  TRAMPOLINE : Nat
  trampoline : Nat
  uservec : Nat
  userret : Nat
  TRAPFRAME : Nat
  UART0_IRQ : Int
  VIRTIO0_IRQ : Int
  MAKE_SATP : Nat → Nat
  syscall : Hart → Option Hart
  yield : Hart → Hart
  plic_claim : Hart → Int × Hart
  plic_complete : Int → Hart → Hart
  uartintr : Hart → Hart
  virtio_disk_intr : Hart → Hart
  wakeup : Hart → Hart

/-- Previous-privilege bit of `sstatus` (riscv.h: `1L << 8`). -/
def SSTATUS_SPP : Nat := 256

/-- Previous-interrupt-enable bit of `sstatus` (riscv.h: `1L << 5`). -/
def SSTATUS_SPIE : Nat := 32

/-- Interrupt-enable bit of `sstatus` (riscv.h: `1L << 1`). -/
def SSTATUS_SIE : Nat := 2

/-- Bitwise complement of a `uint64`. -/
def not64 (v : Nat) : Nat := W64 - 1 - v % W64

/-- Sum of two `uint64`. -/
def add64 (a b : Nat) : Nat := (a + b) % W64

/-- Difference of two `uint64`. -/
def sub64 (a b : Nat) : Nat := (a % W64 + W64 - b % W64) % W64

/-- Record an action. -/
def World.emit (w : World) (e : Event) : World :=
  { w with trace := w.trace ++ [e] }

/-- Call a routine from outside trap.c that returns. -/
def World.call (w : World) (f : Hart → Hart) (e : Event) : World :=
  { h := f w.h, trace := w.trace ++ [e] }

/-- The inline `w_stvec(v)`. -/
def World.w_stvec (w : World) (v : Nat) : World :=
  { h := { w.h with stvec := v }, trace := w.trace ++ [Event.w_stvec v] }

/-- The inline `w_sstatus(v)`. -/
def World.w_sstatus (w : World) (v : Nat) : World :=
  { h := { w.h with sstatus := v }, trace := w.trace ++ [Event.w_sstatus v] }

/-- The inline `w_sepc(v)`. -/
def World.w_sepc (w : World) (v : Nat) : World :=
  { h := { w.h with sepc := v }, trace := w.trace ++ [Event.w_sepc v] }

/-- The inline `w_sip(v)`. -/
def World.w_sip (w : World) (v : Nat) : World :=
  { h := { w.h with sip := v }, trace := w.trace ++ [Event.w_sip v] }

/-- Modelled from the spec: `intr_on()` of riscv.h ("enable_interrupts()"), which sets
the interrupt-enable bit of `sstatus`. -/
def World.intr_on (w : World) : World :=
  { h := { w.h with sstatus := w.h.sstatus ||| SSTATUS_SIE }, trace := w.trace ++ [Event.intr_on] }

/-- Modelled from the spec: `intr_off()` of riscv.h ("disable_interrupts()"), which
clears the interrupt-enable bit of `sstatus`. -/
def World.intr_off (w : World) : World :=
  { h := { w.h with sstatus := w.h.sstatus &&& not64 SSTATUS_SIE },
    trace := w.trace ++ [Event.intr_off] }

/-- Modelled from the spec: `intr_get()` of riscv.h ("interrupts_enabled() -> bool"). -/
def intr_get (h : Hart) : Bool := h.sstatus &&& SSTATUS_SIE ≠ 0

/-- Modelled from the spec: `cpuid()` of proc.c, the "current hardware-thread id", which
the kernel keeps in `tp` (trap.c: "hartid for cpuid()"). -/
def cpuid (h : Hart) : Nat := h.tp

/-- One field of a trap frame replaced. -/
def trapframe.set (t : trapframe) (f : TfField) (v : Nat) : trapframe :=
  match f with
  | TfField.kernel_satp => { t with kernel_satp := v }
  | TfField.kernel_sp => { t with kernel_sp := v }
  | TfField.kernel_trap => { t with kernel_trap := v }
  | TfField.kernel_hartid => { t with kernel_hartid := v }
  | TfField.epc => { t with epc := v }

/-- A store `p->trapframe->f = v`. -/
def World.tfStore (w : World) (f : TfField) (v : Nat) : World :=
  { h := { w.h with p := { w.h.p with trapframe := w.h.p.trapframe.set f v } },
    trace := w.trace ++ [Event.tfStore f v] }

/-- The store `p->killed = v`. -/
def World.setKilled (w : World) (v : Int) : World :=
  { h := { w.h with p := { w.h.p with killed := v } },
    trace := w.trace ++ [Event.setKilled v] }

/-- `clockintr()`: `ticks++` on the `uint` counter, then `wakeup(&ticks)`. -/
def clockintr (E : Env) (w : World) : World :=
  let w1 : World :=
    { h := { w.h with ticks := (w.h.ticks + 1) % 2 ^ 32 }, trace := w.trace ++ [Event.ticksInc] }
  w1.call E.wakeup Event.wakeup

/-- The external-interrupt branch of `devintr()`, from `plic_claim()` to `return 1`. -/
def devintrExternal (E : Env) (w : World) : Int × World :=
  let irq := (E.plic_claim w.h).1
  let w1 : World := { h := (E.plic_claim w.h).2, trace := w.trace ++ [Event.plic_claim irq] }
  let w2 : World :=
    if irq = E.UART0_IRQ then w1.call E.uartintr Event.uartintr
    else if irq = E.VIRTIO0_IRQ then w1.call E.virtio_disk_intr Event.virtio_disk_intr
    else if irq ≠ 0 then w1.emit (Event.printf "unexpected interrupt irq=%d\n" [irq])
    else w1
  let w3 : World := if irq ≠ 0 then w2.call (E.plic_complete irq) (Event.plic_complete irq) else w2
  (1, w3)

/-- The software-interrupt branch of `devintr()`, from `cpuid()` to `return 2`. -/
def devintrTimer (E : Env) (w : World) : Int × World :=
  let w1 : World := if cpuid w.h = 0 then clockintr E w else w
  (2, w1.w_sip (w1.h.sip &&& not64 2))

/-- `devintr()`: the value returned and the world left. -/
def devintr (E : Env) (w : World) : Int × World :=
  let scause := w.h.scause
  if scause &&& 0x8000000000000000 ≠ 0 ∧ scause &&& 0xff = 9 then devintrExternal E w
  else if scause = 0x8000000000000001 then devintrTimer E w
  else (0, w)

/-- `usertrapret()`. -/
def usertrapret (E : Env) (w : World) : Outcome × World :=
  let w := w.emit Event.usertrapret
  let w := w.intr_off
  let w := w.w_stvec (add64 E.TRAMPOLINE (sub64 E.uservec E.trampoline))
  if w.h.curproc = false then (Outcome.fault, w)
  else
    let w := w.tfStore TfField.kernel_satp w.h.satp
    let w := w.tfStore TfField.kernel_sp (add64 w.h.p.kstack PGSIZE)
    let w := w.tfStore TfField.kernel_trap E.usertrapAddr
    let w := w.tfStore TfField.kernel_hartid w.h.tp
    let x := w.h.sstatus
    let x := x &&& not64 SSTATUS_SPP
    let x := x ||| SSTATUS_SPIE
    let w := w.w_sstatus x
    let w := w.w_sepc w.h.p.trapframe.epc
    let satp := E.MAKE_SATP w.h.p.pagetable
    let fn := add64 E.TRAMPOLINE (sub64 E.userret E.trampoline)
    (Outcome.touser, w.emit (Event.userret fn E.TRAPFRAME satp))

/-- The end of `usertrap()`, from the second `if(p->killed)` on. -/
def usertrapTail (E : Env) (which_dev : Int) (w : World) : Outcome × World :=
  if w.h.p.killed ≠ 0 then (Outcome.exited (-1), w.emit (Event.exit (-1)))
  else
    let w := if which_dev = 2 then w.call E.yield Event.yield else w
    usertrapret E w

/-- `usertrap()`. -/
def usertrap (E : Env) (w : World) : Outcome × World :=
  if w.h.sstatus &&& SSTATUS_SPP ≠ 0 then (Outcome.panicked "usertrap: not from user mode", w)
  else
    let w := w.w_stvec E.kernelvec
    if w.h.curproc = false then (Outcome.fault, w)
    else
      let w := w.tfStore TfField.epc w.h.sepc
      if w.h.scause = 8 then
        if w.h.p.killed ≠ 0 then (Outcome.exited (-1), w.emit (Event.exit (-1)))
        else
          let w := w.tfStore TfField.epc (add64 w.h.p.trapframe.epc 4)
          let w := w.intr_on
          match E.syscall w.h with
          | none => (Outcome.noreturn, w.emit Event.syscall)
          | some h1 => usertrapTail E 0 { h := h1, trace := w.trace ++ [Event.syscall] }
      else
        let r := devintr E w
        if r.1 ≠ 0 then usertrapTail E r.1 r.2
        else
          let w := r.2
          let w := w.emit (Event.printf "usertrap(): unexpected scause %p pid=%d\n"
            [(w.h.scause : Int), w.h.p.pid])
          let w := w.emit (Event.printf "            sepc=%p stval=%p\n"
            [(w.h.sepc : Int), (w.h.stval : Int)])
          let w := w.setKilled 1
          usertrapTail E r.1 w

/-- The world of `usertrap()` once `stvec` is set and the user pc is saved, where the
cause is decoded. -/
def usertrapSaved (E : Env) (w : World) : World :=
  (w.w_stvec E.kernelvec).tfStore TfField.epc w.h.sepc

/-- The world of `usertrap()` at its call of `syscall()`: the saved pc advanced by 4 and
interrupts on. -/
def usertrapCalling (E : Env) (w : World) : World :=
  ((usertrapSaved E w).tfStore TfField.epc (add64 w.h.sepc 4)).intr_on

/-- The inputs on which `usertrap()` gets as far as `usertrapret()`: the trap is from user
mode with a current process, and either it is a system call of a process that is not
killed, `syscall()` returns and the process is still not killed, or `devintr()` recognises
the cause and leaves the process not killed. -/
def usertrapReaches (E : Env) (w : World) : Prop :=
  w.h.sstatus.testBit 8 = false ∧ w.h.curproc = true ∧
    ((w.h.scause = 8 ∧ w.h.p.killed = 0 ∧
        ∃ h1, E.syscall (usertrapCalling E w).h = some h1 ∧ h1.p.killed = 0) ∨
      (w.h.scause ≠ 8 ∧ (devintr E w).1 ≠ 0 ∧
        (devintr E (usertrapSaved E w)).2.h.p.killed = 0))

/-- The inputs on which `usertrap()` serves a timer interrupt and goes on to return: the
trap is from user mode with a current process, the cause is not a system call, `devintr()`
returns 2 and leaves the process not killed. -/
def usertrapTimer (E : Env) (w : World) : Prop :=
  w.h.sstatus.testBit 8 = false ∧ w.h.curproc = true ∧ w.h.scause ≠ 8 ∧
    (devintr E w).1 = 2 ∧ (devintr E (usertrapSaved E w)).2.h.p.killed = 0

instance (E : Env) (w : World) : Decidable (usertrapTimer E w) :=
  inferInstanceAs (Decidable (w.h.sstatus.testBit 8 = false ∧ w.h.curproc = true ∧
    w.h.scause ≠ 8 ∧ (devintr E w).1 = 2 ∧ (devintr E (usertrapSaved E w)).2.h.p.killed = 0))

/-- The world of `usertrap()` after an unrecognised cause has been reported and the
process marked killed; `w` is the world `devintr()` left. -/
def usertrapReported (w : World) : World :=
  ((w.emit (Event.printf "usertrap(): unexpected scause %p pid=%d\n"
      [(w.h.scause : Int), w.h.p.pid])).emit
    (Event.printf "            sepc=%p stval=%p\n" [(w.h.sepc : Int), (w.h.stval : Int)])).setKilled 1

/-- `kerneltrap()`. -/
def kerneltrap (E : Env) (w : World) : Outcome × World :=
  let sepc := w.h.sepc
  let sstatus := w.h.sstatus
  let scause := w.h.scause
  if sstatus &&& SSTATUS_SPP = 0 then
    (Outcome.panicked "kerneltrap: not from supervisor mode", w)
  else if intr_get w.h then (Outcome.panicked "kerneltrap: interrupts enabled", w)
  else
    let r := devintr E w
    if r.1 = 0 then
      let w := r.2
      let w := w.emit (Event.printf "scause %p\n" [(scause : Int)])
      let w := w.emit (Event.printf "sepc=%p stval=%p\n" [(w.h.sepc : Int), (w.h.stval : Int)])
      (Outcome.panicked "kerneltrap", w)
    else
      let w := r.2
      let w :=
        if r.1 = 2 ∧ w.h.curproc = true ∧ w.h.p.state = procstate.RUNNING then
          w.call E.yield Event.yield
        else w
      let w := w.w_sepc sepc
      let w := w.w_sstatus sstatus
      (Outcome.returned, w)

/-- A process in user mode with an empty trap frame. -/
def sampleProc : proc :=
  { state := procstate.RUNNING, killed := 0, pid := 3, kstack := 274877894656,
    pagetable := 2281701376,
    trapframe := { kernel_satp := 0, kernel_sp := 0, kernel_trap := 0, epc := 0, kernel_hartid := 0,
                   uregs := List.replicate 31 0 } }

/-- A hart that trapped from user mode at pc 4660 with the given cause. -/
def sampleHart (scause : Nat) : Hart :=
  { sstatus := 32, stvec := 274877902848, sepc := 4660, scause := scause, stval := 0, sip := 2,
    satp := 9223372036855332864, tp := 0, ticks := 7, curproc := true, p := sampleProc }

/-- The world of `sampleHart` with nothing done yet. -/
def sampleWorld (scause : Nat) : World := { h := sampleHart scause, trace := [] }

/-- The world of a hart that trapped in supervisor mode with interrupts off. -/
def sampleKernelWorld (scause : Nat) : World :=
  { h := { sampleHart scause with sstatus := 256 }, trace := [] }

/-- An environment with the qemu `virt` interrupt numbers (UART 10, virtio disk 1), a
PLIC that reports `irq`, and collaborators that leave the hart as it is. -/
def sampleEnv (irq : Int) : Env :=
  { kernelvec := 2147516416, usertrapAddr := 2147494000, TRAMPOLINE := 274877902848,
    trampoline := 2147512320, uservec := 2147512320, userret := 2147512464,
    TRAPFRAME := 274877898752, UART0_IRQ := 10, VIRTIO0_IRQ := 1,
    MAKE_SATP := fun pt => 9223372036854775808 ||| (pt >>> 12),
    syscall := fun h => some h, yield := fun h => h,
    plic_claim := fun h => (irq, h), plic_complete := fun _ h => h,
    uartintr := fun h => h, virtio_disk_intr := fun h => h, wakeup := fun h => h }

/-! ## printf.c -/

/-- What can go wrong in `printint`. -/
inductive Fault where
  /-- the fuel of the model ran out -/
  | fuel : Fault
  /-- a division by zero, `x % base` with `base = 0` -/
  | divZero : Fault
  /-- a store to `buf[i]` with `i` outside the 16 bytes of `buf` -/
  | bufIndex (i : Nat) : Fault
  /-- a read of `digits[i]` with `i` outside the array -/
  | digitIndex (i : Nat) : Fault
  deriving DecidableEq, Repr

/-- The array `static char digits[] = "0123456789abcdef"`, with its terminating NUL. -/
def digits : List Char := "0123456789abcdef".toList ++ [Char.ofNat 0]

/-- Value of a C `unsigned int` after an arithmetic result `x` is stored in it. -/
def toU32 (x : Int) : Nat := (x % 2 ^ 32).toNat

/-- The store `buf[i++] = c` into `char buf[16]`; `buf` lists the bytes written so far,
so `i` is its length. -/
def bufPut (buf : List Char) (c : Char) : Except Fault (List Char) :=
  if buf.length < 16 then Except.ok (buf ++ [c]) else Except.error (Fault.bufIndex buf.length)

/-- The loop `do { buf[i++] = digits[x % base]; } while((x /= base) != 0);` of `printint`,
on the `uint` values `x` and `base`. -/
def printintLoop (base : Nat) : Nat → Nat → List Char → Except Fault (List Char)
  | 0, _, _ => Except.error Fault.fuel
  | fuel + 1, x, buf =>
    if base = 0 then Except.error Fault.divZero
    else
      match digits.get? (x % base) with
      | none => Except.error (Fault.digitIndex (x % base))
      | some c =>
        match bufPut buf c with
        | Except.error f => Except.error f
        | Except.ok buf1 =>
          if x / base ≠ 0 then printintLoop base fuel (x / base) buf1 else Except.ok buf1

/-- `printint(xx, base, sign)`: the characters handed to `consputc`, in order. The last
loop, `while(--i >= 0) consputc(buf[i]);`, sends the buffer back to front. -/
def printint (fuel : Nat) (xx base sign : Int) : Except Fault (List Char) :=
  let sign1 : Int := if sign ≠ 0 then (if xx < 0 then 1 else 0) else sign
  let x : Nat := if sign ≠ 0 ∧ sign1 ≠ 0 then toU32 (toInt32 (-xx)) else toU32 xx
  match printintLoop (toU32 base) fuel x [] with
  | Except.error f => Except.error f
  | Except.ok buf =>
    match (if sign1 ≠ 0 then bufPut buf '-' else Except.ok buf) with
    | Except.error f => Except.error f
    | Except.ok buf1 => Except.ok buf1.reverse

/-- The digits of `n` in base `b`, most significant first, without leading zeros, and a
single `0` for zero: the reference for what `printint` must print. -/
def digitsMSF (b n : Nat) : List Char :=
  if n = 0 then ['0'] else ((Nat.digits b n).reverse).map Nat.digitChar

/-- The signed representation of `xx` in base `b`: a leading `-` when `xx < 0`, then the
digits of the magnitude of `xx`. -/
def signedRepr (b : Nat) (xx : Int) : List Char :=
  (if xx < 0 then ['-'] else []) ++ digitsMSF b xx.natAbs

/-! ## Memory lemmas -/

theorem load64_congr (m1 m2 : Mem) (p : Nat) (h : ∀ i, i < 8 → m1 (p + i) = m2 (p + i)) :
    load64 m1 p = load64 m2 p := by
  unfold load64
  have h0 := h 0 (by omega)
  rw [Nat.add_zero] at h0
  rw [h0, h 1 (by omega), h 2 (by omega), h 3 (by omega), h 4 (by omega), h 5 (by omega),
    h 6 (by omega), h 7 (by omega)]

theorem load64_lt (m : Mem) (p : Nat) : load64 m p < W64 := by
  unfold load64 W64
  omega

theorem store64_at (m : Mem) (p v i : Nat) (hi : i < 8) :
    store64 m p v (p + i) = (v / 256 ^ i) % 256 := by
  unfold store64
  rw [if_pos ⟨Nat.le_add_right p i, by omega⟩, Nat.add_sub_cancel_left]

theorem load64_bytes (m : Mem) (p v : Nat) (hv : v < W64)
    (h : ∀ i, i < 8 → m (p + i) = (v / 256 ^ i) % 256) : load64 m p = v := by
  unfold W64 at hv
  unfold load64
  have h0 := h 0 (by omega)
  rw [Nat.add_zero] at h0
  rw [h0, h 1 (by omega), h 2 (by omega), h 3 (by omega), h 4 (by omega), h 5 (by omega),
    h 6 (by omega), h 7 (by omega)]
  norm_num
  omega

theorem load64_store64 (m : Mem) (p v : Nat) (hv : v < W64) :
    load64 (store64 m p v) p = v :=
  load64_bytes _ p v hv (fun i hi => store64_at m p v i hi)

theorem Chain.congr {m1 m2 : Mem} : ∀ {l : List Nat} {p : Nat}, Chain m1 p l →
    (∀ a, a ∈ l → ∀ i, i < 8 → m1 (a + i) = m2 (a + i)) → Chain m2 p l
  | [], _, h, _ => h
  | a :: l, p, h, hm => by
    unfold Chain at h ⊢
    refine ⟨h.1, h.2.1, ?_⟩
    rw [← load64_congr m1 m2 a (hm a (List.mem_cons_self a l))]
    exact Chain.congr h.2.2 (fun b hb => hm b (List.mem_cons_of_mem a hb))

theorem Chain.unique {m : Mem} : ∀ {l1 l2 : List Nat} {p : Nat}, Chain m p l1 → Chain m p l2 →
    l1 = l2
  | [], [], _, _, _ => rfl
  | [], _ :: _, _, h1, h2 => absurd h1 h2.1
  | _ :: _, [], _, h1, h2 => absurd h2 h1.1
  | a :: l1, b :: l2, p, h1, h2 => by
    unfold Chain at h1 h2
    have hab : a = b := h1.2.1.symm.trans h2.2.1
    subst hab
    rw [Chain.unique h1.2.2 h2.2.2]

/-! ## The free list under `kfree` and `kalloc` -/

theorem kfree_mem_other (pa a i : Nat) (k : Kmem) (ha : a % PGSIZE = 0)
    (hpa : pa % PGSIZE = 0) (hne : a ≠ pa) (hi : i < PGSIZE) :
    (kfreeLink pa (kfreeFill pa k)).mem (a + i) = k.mem (a + i) := by
  unfold PGSIZE at ha hpa hi
  have h1 : ¬ (pa ≤ a + i ∧ a + i < pa + 8) := by omega
  have h2 : ¬ (pa ≤ a + i ∧ a + i < pa + PGSIZE) := by unfold PGSIZE; omega
  simp only [kfreeLink, kfreeFill, store64, memset, if_neg h1, if_neg h2]

theorem kfree_done (L : Layout) (pa : Nat) (k : Kmem) (hpa : isFrame L pa) :
    kfree L pa k = Run.done (kfreeLink pa (kfreeFill pa k)) := by
  have hb : ¬ kfreeBad L pa := by
    unfold kfreeBad
    unfold isFrame at hpa
    omega
  simp only [kfree, if_neg hb]

theorem kfree_chain (L : Layout) (pa : Nat) (k : Kmem) (l : List Nat) (hend : 0 < L.end_)
    (hfl : k.freelist < W64) (hpa : isFrame L pa) (hc : Chain k.mem k.freelist l)
    (hal : ∀ a, a ∈ l → a % PGSIZE = 0) (hnot : pa ∉ l) :
    Chain (kfreeLink pa (kfreeFill pa k)).mem (kfreeLink pa (kfreeFill pa k)).freelist
      (pa :: l) := by
  have hpa0 : pa ≠ 0 := by
    unfold isFrame at hpa
    omega
  have hld : load64 (kfreeLink pa (kfreeFill pa k)).mem pa = k.freelist := by
    simp only [kfreeLink, kfreeFill]
    exact load64_store64 _ pa k.freelist hfl
  refine ⟨hpa0, rfl, ?_⟩
  rw [hld]
  refine Chain.congr hc ?_
  intro a ha i hi
  have hne : a ≠ pa := fun h => hnot (h ▸ ha)
  exact (kfree_mem_other pa a i k (hal a ha) hpa.1 hne (by unfold PGSIZE; omega)).symm

theorem kalloc_null (k : Kmem) (h : k.freelist = 0) : kalloc k = (0, k) := by
  simp [kalloc, h]

theorem kalloc_fst (k : Kmem) : (kalloc k).1 = k.freelist := rfl

theorem kalloc_snd (k : Kmem) (h : k.freelist ≠ 0) :
    (kalloc k).2 = { mem := memset k.mem k.freelist 5 PGSIZE,
                     freelist := load64 k.mem k.freelist } := by
  simp [kalloc, h]

theorem kalloc_chain (k : Kmem) (a : Nat) (t : List Nat) (hc : Chain k.mem k.freelist (a :: t))
    (hnd : a ∉ t) (hal : ∀ b, b ∈ a :: t → b % PGSIZE = 0) :
    (kalloc k).1 = a ∧ Chain (kalloc k).2.mem (kalloc k).2.freelist t := by
  unfold Chain at hc
  obtain ⟨h0, hpa, hrest⟩ := hc
  refine ⟨hpa, ?_⟩
  rw [kalloc_snd k h0]
  simp only
  rw [hpa]
  refine Chain.congr hrest ?_
  intro b hb i hi
  have hne : b ≠ a := fun h => hnd (h ▸ hb)
  have hb4 := hal b (List.mem_cons_of_mem a hb)
  have ha4 := hal a (List.mem_cons_self a t)
  unfold PGSIZE at hb4 ha4
  have h2 : ¬ (a ≤ b + i ∧ b + i < a + PGSIZE) := by unfold PGSIZE; omega
  simp only [memset, if_neg h2]

theorem Chain.head_lt {L : Layout} {m : Mem} {p : Nat} {l : List Nat} (hfit : L.PHYSTOP ≤ W64)
    (hc : Chain m p l) (hl : ∀ a, a ∈ l → isFrame L a) : p < W64 := by
  cases l with
  | nil =>
    have h0 : p = 0 := hc
    rw [h0]
    unfold W64
    omega
  | cons a t =>
    have h1 : p = a := hc.2.1
    have h2 := (hl a (List.mem_cons_self a t)).2.2
    omega

theorem Good.alloc {reg : List Nat} {k : Kmem} {held : List Nat}
    (hreg : ∀ a, a ∈ reg → a % PGSIZE = 0) (hg : Good reg k held) :
    Good reg (kalloc k).2 (if (kalloc k).1 = 0 then held else (kalloc k).1 :: held) := by
  obtain ⟨hfl, hhn, hhr, l, hc, hnd, hmem⟩ := hg
  cases l with
  | nil =>
    have h0 : k.freelist = 0 := hc
    rw [kalloc_null k h0]
    exact ⟨hfl, hhn, hhr, [], hc, hnd, hmem⟩
  | cons a t =>
    have hal : ∀ b, b ∈ a :: t → b % PGSIZE = 0 := fun b hb => hreg b ((hmem b).1 hb).1
    obtain ⟨h1, h2⟩ := kalloc_chain k a t hc (List.nodup_cons.mp hnd).1 hal
    have ha0 : a ≠ 0 := by
      have := hc.1
      have h3 := hc.2.1
      omega
    have hamem := (hmem a).1 (List.mem_cons_self a t)
    rw [h1, if_neg ha0]
    refine ⟨?_, List.nodup_cons.mpr ⟨hamem.2, hhn⟩, ?_, t, h2, (List.nodup_cons.mp hnd).2, ?_⟩
    · rw [kalloc_snd k hc.1]
      exact load64_lt _ _
    · intro b hb
      rcases List.mem_cons.mp hb with rfl | hb
      · exact hamem.1
      · exact hhr b hb
    · intro b
      constructor
      · intro hb
        have hb2 := (hmem b).1 (List.mem_cons_of_mem a hb)
        refine ⟨hb2.1, ?_⟩
        intro hba
        rcases List.mem_cons.mp hba with rfl | hba
        · exact (List.nodup_cons.mp hnd).1 hb
        · exact hb2.2 hba
      · rintro ⟨hb1, hb2⟩
        have hb3 : b ∈ a :: t := (hmem b).2 ⟨hb1, fun h => hb2 (List.mem_cons_of_mem a h)⟩
        rcases List.mem_cons.mp hb3 with rfl | hb3
        · exact absurd (List.mem_cons_self b held) hb2
        · exact hb3

theorem Good.free {L : Layout} {reg : List Nat} {k : Kmem} {held : List Nat} {pa : Nat}
    (hend : 0 < L.end_) (hfit : L.PHYSTOP ≤ W64) (hreg : ∀ a, a ∈ reg → isFrame L a)
    (hg : Good reg k held) (hpa : pa ∈ held) :
    kfree L pa k = Run.done (kfreeLink pa (kfreeFill pa k)) ∧
      Good reg (kfreeLink pa (kfreeFill pa k)) (held.erase pa) := by
  obtain ⟨hfl, hhn, hhr, l, hc, hnd, hmem⟩ := hg
  have hfr : isFrame L pa := hreg pa (hhr pa hpa)
  have hnot : pa ∉ l := fun h => ((hmem pa).1 h).2 hpa
  have hal : ∀ a, a ∈ l → a % PGSIZE = 0 := fun a ha => (hreg a ((hmem a).1 ha).1).1
  refine ⟨kfree_done L pa k hfr, ?_, hhn.erase pa, ?_, pa :: l,
    kfree_chain L pa k l hend hfl hfr hc hal hnot, List.nodup_cons.mpr ⟨hnot, hnd⟩, ?_⟩
  · have := hfr.2.2
    show pa < W64
    omega
  · intro a ha
    exact hhr a (List.mem_of_mem_erase ha)
  · intro a
    rw [List.mem_cons, hhn.mem_erase_iff, hmem a]
    constructor
    · rintro (rfl | ⟨h1, h2⟩)
      · exact ⟨hhr a hpa, fun h => h.1 rfl⟩
      · exact ⟨h1, fun h => h2 h.2⟩
    · rintro ⟨h1, h2⟩
      by_cases hap : a = pa
      · exact Or.inl hap
      · exact Or.inr ⟨h1, fun h => h2 ⟨hap, h⟩⟩

theorem runOps_good (L : Layout) (reg : List Nat) (hend : 0 < L.end_) (hfit : L.PHYSTOP ≤ W64)
    (hreg : ∀ a, a ∈ reg → isFrame L a) :
    ∀ (ops : List Op) (k : Kmem) (held : List Nat), Good reg k held →
      (∃ k1 held1, runOps L ops k held = Except.ok (k1, held1) ∧ Good reg k1 held1) ∨
      (∃ pa, runOps L ops k held = Except.error (Stop.notHeld pa))
  | [], k, held, hg => Or.inl ⟨k, held, rfl, hg⟩
  | Op.alloc :: ops, k, held, hg => by
    unfold runOps
    exact runOps_good L reg hend hfit hreg ops _ _ (Good.alloc (fun a ha => (hreg a ha).1) hg)
  | Op.free pa :: ops, k, held, hg => by
    unfold runOps
    by_cases hpa : pa ∈ held
    · obtain ⟨h1, h2⟩ := Good.free hend hfit hreg hg hpa
      rw [if_pos hpa, h1]
      exact runOps_good L reg hend hfit hreg ops _ _ h2
    · rw [if_neg hpa]
      exact Or.inr ⟨pa, rfl⟩

/-! ## `kinit` -/

theorem freerangeLoop_wrapped (L : Layout) (hend : 0 < L.end_) (hbig : PGSIZE ≤ L.PHYSTOP)
    (fuel : Nat) (k : Kmem) (tr : List Nat) (k1 : Kmem) :
    freerangeLoop L L.PHYSTOP fuel 0 k ≠ some (tr, Run.done k1) := by
  cases fuel with
  | zero => simp [freerangeLoop]
  | succ n =>
    have hb : kfreeBad L 0 := Or.inr (Or.inl hend)
    have hc : (0 + PGSIZE) % W64 ≤ L.PHYSTOP := by
      unfold PGSIZE W64 at *
      omega
    have hk : kfree L 0 k = Run.panic "kfree" k := by simp only [kfree, if_pos hb]
    rw [freerangeLoop, if_pos hc, hk]
    intro h
    cases h

theorem freerangeLoop_inv (L : Layout) (hend : 0 < L.end_) (hfit : L.PHYSTOP ≤ W64) :
    ∀ (fuel p : Nat) (k : Kmem) (l tr : List Nat) (k1 : Kmem),
      k.freelist < W64 → Chain k.mem k.freelist l → l.Nodup →
      (∀ a, a ∈ l → isFrame L a ∧ a < p) →
      freerangeLoop L L.PHYSTOP fuel p k = some (tr, Run.done k1) →
      k1.freelist < W64 ∧ Chain k1.mem k1.freelist (tr.reverse ++ l) ∧
        (tr.reverse ++ l).Nodup ∧ (∀ a, a ∈ tr → isFrame L a) ∧ ∀ a, a ∈ tr → p ≤ a := by
  intro fuel
  induction fuel with
  | zero =>
    intro p k l tr k1 _ _ _ _ h
    simp [freerangeLoop] at h
  | succ n ih =>
    intro p k l tr k1 hfl hc hnd hl h
    rw [freerangeLoop] at h
    by_cases hchk : (p + PGSIZE) % W64 ≤ L.PHYSTOP
    · rw [if_pos hchk] at h
      by_cases hb : kfreeBad L p
      · have hk : kfree L p k = Run.panic "kfree" k := by simp only [kfree, if_pos hb]
        rw [hk] at h
        cases h
      · have hfr : isFrame L p := by
          unfold kfreeBad at hb
          unfold isFrame
          omega
        rw [kfree_done L p k hfr] at h
        simp only [Option.map_eq_some'] at h
        obtain ⟨⟨tr1, r1⟩, hrec, heq⟩ := h
        simp only [Prod.mk.injEq] at heq
        obtain ⟨rfl, rfl⟩ := heq
        have hnot : p ∉ l := fun hm => Nat.lt_irrefl p (hl p hm).2
        have hal : ∀ a, a ∈ l → a % PGSIZE = 0 := fun a ha => (hl a ha).1.1
        have hc1 := kfree_chain L p k l hend hfl hfr hc hal hnot
        have hfl1 : (kfreeLink p (kfreeFill p k)).freelist < W64 := by
          show p < W64
          have := hfr.2.2
          omega
        by_cases hw : p + PGSIZE < W64
        · rw [Nat.mod_eq_of_lt hw] at hrec
          have hl1 : ∀ a, a ∈ p :: l → isFrame L a ∧ a < p + PGSIZE := by
            intro a ha
            rcases List.mem_cons.mp ha with rfl | ha
            · exact ⟨hfr, by unfold PGSIZE; omega⟩
            · exact ⟨(hl a ha).1, by have := (hl a ha).2; omega⟩
          obtain ⟨g1, g2, g3, g4, g5⟩ := ih (p + PGSIZE) _ (p :: l) tr1 k1 hfl1 hc1
            (List.nodup_cons.mpr ⟨hnot, hnd⟩) hl1 hrec
          refine ⟨g1, ?_, ?_, ?_, ?_⟩
          · simpa [List.reverse_cons, List.append_assoc] using g2
          · simpa [List.reverse_cons, List.append_assoc] using g3
          · intro a ha
            rcases List.mem_cons.mp ha with rfl | ha
            · exact hfr
            · exact g4 a ha
          · intro a ha
            rcases List.mem_cons.mp ha with rfl | ha
            · exact Nat.le_refl _
            · have := g5 a ha
              omega
        · exfalso
          have h4 := hfr.1
          have h5 := hfr.2.2
          have hp : (p + PGSIZE) % W64 = 0 := by
            unfold PGSIZE W64 at *
            omega
          rw [hp] at hrec
          refine freerangeLoop_wrapped L hend ?_ n _ tr1 k1 hrec
          unfold PGSIZE W64 at *
          omega
    · rw [if_neg hchk] at h
      simp only [Option.some.injEq, Prod.mk.injEq, Run.done.injEq] at h
      obtain ⟨rfl, rfl⟩ := h
      exact ⟨hfl, by simpa using hc, by simpa using hnd, by simp, by simp⟩

theorem kinit_inv (L : Layout) (hend : 0 < L.end_) (hfit : L.PHYSTOP ≤ W64) (fuel : Nat)
    (m : Mem) (reg : List Nat) (k : Kmem)
    (h : kinit L fuel (emptyKmem m) = some (reg, Run.done k)) :
    Good reg k [] ∧ ∀ a, a ∈ reg → isFrame L a := by
  unfold kinit freerange at h
  obtain ⟨g1, g2, g3, g4, _⟩ := freerangeLoop_inv L hend hfit fuel _ (emptyKmem m) [] reg k
    (by unfold emptyKmem W64; simp) rfl List.nodup_nil (by simp) h
  rw [List.append_nil] at g2 g3
  exact ⟨⟨g1, List.nodup_nil, by simp, reg.reverse, g2, g3, by simp⟩, g4⟩

/-! ## Claims on the allocator -/

/-- C1 (allocator round-trip). Start from the state `kinit` leaves, on a machine whose
kernel image ends above address 0 and whose `PHYSTOP` fits 64 bits. Any sequence of
`kalloc`/`kfree` calls either frees a frame the client does not hold (outside the
protocol), or runs to the end without a panic and leaves a free list that is a chain
without repetition whose frames are exactly the frames registered by `kinit` that are
not held; so no frame is both free and held, and none is on the list twice. -/
theorem kalloc_kfree_round_trip (L : Layout) (hend : 0 < L.end_) (hfit : L.PHYSTOP ≤ W64)
    (fuel : Nat) (m : Mem) (reg : List Nat) (k0 : Kmem)
    (hinit : kinit L fuel (emptyKmem m) = some (reg, Run.done k0)) (ops : List Op) :
    (∃ k held, runOps L ops k0 [] = Except.ok (k, held) ∧ held.Nodup ∧
      ∃ l, Chain k.mem k.freelist l ∧ l.Nodup ∧ (∀ a, a ∈ l ↔ a ∈ reg ∧ a ∉ held) ∧
        ∀ a, ¬ (a ∈ l ∧ a ∈ held)) ∨
    (∃ pa, runOps L ops k0 [] = Except.error (Stop.notHeld pa)) := by
  obtain ⟨hg, hreg⟩ := kinit_inv L hend hfit fuel m reg k0 hinit
  rcases runOps_good L reg hend hfit hreg ops k0 [] hg with ⟨k, held, hrun, hgood⟩ | hbad
  · obtain ⟨_, hhn, _, l, hc, hnd, hmem⟩ := hgood
    exact Or.inl ⟨k, held, hrun, hhn, l, hc, hnd, hmem, fun a ha => ((hmem a).1 ha.1).2 ha.2⟩
  · exact Or.inr hbad

/-- Witness of C1: the three-frame machine, with two allocations and one release. -/
theorem kalloc_kfree_round_trip_witness :
    (0 < sampleLayout.end_ ∧ sampleLayout.PHYSTOP ≤ W64 ∧
      kinit sampleLayout 8 (emptyKmem zeroMem) = some ([4096, 8192, 12288], Run.done sampleKmem)) ∧
    ((∃ k held, runOps sampleLayout [Op.alloc, Op.alloc, Op.free 12288] sampleKmem [] =
        Except.ok (k, held) ∧ held.Nodup ∧
      ∃ l, Chain k.mem k.freelist l ∧ l.Nodup ∧
        (∀ a, a ∈ l ↔ a ∈ [4096, 8192, 12288] ∧ a ∉ held) ∧ ∀ a, ¬ (a ∈ l ∧ a ∈ held)) ∨
    (∃ pa, runOps sampleLayout [Op.alloc, Op.alloc, Op.free 12288] sampleKmem [] =
        Except.error (Stop.notHeld pa))) :=
  ⟨⟨by decide, by decide, rfl⟩,
    kalloc_kfree_round_trip sampleLayout (by decide) (by decide) 8 zeroMem
      [4096, 8192, 12288] sampleKmem rfl [Op.alloc, Op.alloc, Op.free 12288]⟩

/-- C2 (exhaustion and LIFO reuse). With an empty free list `kalloc` returns 0 and changes
nothing. In every allocator state (head pointer of 64 bits, the exhausted state included),
for every valid frame `pa`, `kfree(pa)` does not panic and the `kalloc` right after it
returns `pa` and leaves the head pointer as it was before the `kfree`; and when the free
list was a chain of aligned frames without `pa`, it is the same chain afterwards. -/
theorem kalloc_exhaustion_lifo :
    (∀ k : Kmem, k.freelist = 0 → kalloc k = (0, k)) ∧
    (∀ (L : Layout) (k : Kmem) (pa : Nat), 0 < L.end_ → k.freelist < W64 → isFrame L pa →
      ∃ k1, kfree L pa k = Run.done k1 ∧ (kalloc k1).1 = pa ∧
        (kalloc k1).2.freelist = k.freelist ∧
        ∀ l, Chain k.mem k.freelist l → (∀ a, a ∈ l → a % PGSIZE = 0) → pa ∉ l →
          Chain (kalloc k1).2.mem (kalloc k1).2.freelist l) := by
  refine ⟨kalloc_null, ?_⟩
  intro L k pa hend hfl hpa
  have hpa0 : pa ≠ 0 := by
    have := hpa.2.1
    omega
  refine ⟨_, kfree_done L pa k hpa, rfl, ?_, ?_⟩
  · rw [kalloc_snd _ hpa0]
    exact load64_store64 _ pa k.freelist hfl
  · intro l hc hal hnot
    have hc1 := kfree_chain L pa k l hend hfl hpa hc hal hnot
    have hal1 : ∀ b, b ∈ pa :: l → b % PGSIZE = 0 := by
      intro b hb
      rcases List.mem_cons.mp hb with rfl | hb
      · exact hpa.1
      · exact hal b hb
    exact (kalloc_chain _ pa l hc1 hnot hal1).2

/-- Witness of C2: on the three-frame machine with nothing free, frame 8192 is freed and
allocated again. -/
theorem kalloc_exhaustion_lifo_witness :
    (0 < sampleLayout.end_ ∧ (emptyKmem zeroMem).freelist < W64 ∧ isFrame sampleLayout 8192) ∧
    ∃ k1, kfree sampleLayout 8192 (emptyKmem zeroMem) = Run.done k1 ∧ (kalloc k1).1 = 8192 ∧
      (kalloc k1).2.freelist = (emptyKmem zeroMem).freelist ∧
      ∀ l, Chain (emptyKmem zeroMem).mem (emptyKmem zeroMem).freelist l →
        (∀ a, a ∈ l → a % PGSIZE = 0) → 8192 ∉ l →
        Chain (kalloc k1).2.mem (kalloc k1).2.freelist l :=
  ⟨⟨by decide, by decide, by decide⟩,
    kalloc_exhaustion_lifo.2 sampleLayout (emptyKmem zeroMem) 8192 (by decide) (by decide)
      (by decide)⟩

/-- C3 (poison). When `kalloc` returns a non-null frame, each of its 4096 bytes is 5,
the link word included. When `kfree` does not panic, each of the 4096 bytes of the frame
is 1 after the fill and before the link is written; the state returned is that one with
the frame linked, so bytes 8..4095 are still 1 and the first word reads back as the
previous list head. A byte poisoned by `kalloc` differs from one poisoned by `kfree`. -/
theorem kalloc_kfree_poison :
    (∀ (k : Kmem) (i : Nat), (kalloc k).1 ≠ 0 → i < PGSIZE →
      (kalloc k).2.mem ((kalloc k).1 + i) = 5) ∧
    (∀ (L : Layout) (pa : Nat) (k k1 : Kmem), kfree L pa k = Run.done k1 → k.freelist < W64 →
      (∀ i, i < PGSIZE → (kfreeFill pa k).mem (pa + i) = 1) ∧
      k1 = kfreeLink pa (kfreeFill pa k) ∧
      (∀ i, 8 ≤ i → i < PGSIZE → k1.mem (pa + i) = 1) ∧
      load64 k1.mem pa = k.freelist ∧ k1.freelist = pa) ∧
    (∀ (k k1 : Kmem) (pa i j : Nat), (kalloc k).1 ≠ 0 → i < PGSIZE → j < PGSIZE →
      (kalloc k).2.mem ((kalloc k).1 + i) ≠ (kfreeFill pa k1).mem (pa + j)) := by
  have hfill : ∀ (pa : Nat) (k : Kmem) (i : Nat), i < PGSIZE → (kfreeFill pa k).mem (pa + i) = 1 := by
    intro pa k i hi
    have h : pa ≤ pa + i ∧ pa + i < pa + PGSIZE := by omega
    simp only [kfreeFill, memset, if_pos h]
  have halloc : ∀ (k : Kmem) (i : Nat), (kalloc k).1 ≠ 0 → i < PGSIZE →
      (kalloc k).2.mem ((kalloc k).1 + i) = 5 := by
    intro k i h0 hi
    rw [kalloc_fst] at h0 ⊢
    rw [kalloc_snd k h0]
    have h : k.freelist ≤ k.freelist + i ∧ k.freelist + i < k.freelist + PGSIZE := by omega
    simp only [memset, if_pos h]
  refine ⟨halloc, ?_, ?_⟩
  · intro L pa k k1 hk hfl
    have hk1 : k1 = kfreeLink pa (kfreeFill pa k) := by
      unfold kfree at hk
      split at hk
      · cases hk
      · cases hk
        rfl
    refine ⟨hfill pa k, hk1, ?_, ?_, ?_⟩
    · intro i h8 hi
      rw [hk1]
      have h1 : ¬ (pa ≤ pa + i ∧ pa + i < pa + 8) := by omega
      have h2 : pa ≤ pa + i ∧ pa + i < pa + PGSIZE := by omega
      simp only [kfreeLink, kfreeFill, store64, memset, if_neg h1, if_pos h2]
    · rw [hk1]
      exact load64_store64 _ pa k.freelist hfl
    · rw [hk1]
      rfl
  · intro k k1 pa i j h0 hi hj
    rw [halloc k i h0 hi, hfill pa k1 j hj]
    decide

/-- Witness of C3: freeing frame 4096 of the three-frame machine into an empty allocator. -/
theorem kalloc_kfree_poison_witness :
    (kfree sampleLayout 4096 (emptyKmem zeroMem) =
        Run.done (kfreeLink 4096 (kfreeFill 4096 (emptyKmem zeroMem))) ∧
      (emptyKmem zeroMem).freelist < W64) ∧
    ((∀ i, i < PGSIZE → (kfreeFill 4096 (emptyKmem zeroMem)).mem (4096 + i) = 1) ∧
      kfreeLink 4096 (kfreeFill 4096 (emptyKmem zeroMem)) =
        kfreeLink 4096 (kfreeFill 4096 (emptyKmem zeroMem)) ∧
      (∀ i, 8 ≤ i → i < PGSIZE →
        (kfreeLink 4096 (kfreeFill 4096 (emptyKmem zeroMem))).mem (4096 + i) = 1) ∧
      load64 (kfreeLink 4096 (kfreeFill 4096 (emptyKmem zeroMem))).mem 4096 =
        (emptyKmem zeroMem).freelist ∧
      (kfreeLink 4096 (kfreeFill 4096 (emptyKmem zeroMem))).freelist = 4096) :=
  ⟨⟨rfl, by decide⟩,
    kalloc_kfree_poison.2.1 sampleLayout 4096 (emptyKmem zeroMem) _ rfl (by decide)⟩

/-- C4 (fatal on misuse). `kfree(pa)` panics, with the message "kfree", exactly when `pa`
is not a multiple of 4096, or is below `end`, or is at or above `PHYSTOP`; the state at
the halt is the state at entry: no byte written, free list untouched. -/
theorem kfree_panic_iff (L : Layout) (pa : Nat) (k : Kmem) :
    ((∃ msg k1, kfree L pa k = Run.panic msg k1) ↔
      (pa % 4096 ≠ 0 ∨ pa < L.end_ ∨ L.PHYSTOP ≤ pa)) ∧
    (∀ msg k1, kfree L pa k = Run.panic msg k1 → msg = "kfree" ∧ k1 = k) := by
  by_cases hb : kfreeBad L pa
  · have hk : kfree L pa k = Run.panic "kfree" k := by simp only [kfree, if_pos hb]
    rw [hk]
    refine ⟨⟨fun _ => hb, fun _ => ⟨_, _, rfl⟩⟩, ?_⟩
    intro msg k1 h
    cases h
    exact ⟨rfl, rfl⟩
  · have hk : kfree L pa k = Run.done (kfreeLink pa (kfreeFill pa k)) := by
      simp only [kfree, if_neg hb]
    rw [hk]
    refine ⟨⟨?_, fun h => absurd h hb⟩, ?_⟩
    · rintro ⟨msg, k1, h⟩
      cases h
    · intro msg k1 h
      cases h

/-- Witness of C4: an address that is not frame-aligned. -/
theorem kfree_panic_iff_witness :
    kfree sampleLayout 4097 sampleKmem = Run.panic "kfree" sampleKmem ∧
      ("kfree" = "kfree" ∧ sampleKmem = sampleKmem) :=
  ⟨rfl, (kfree_panic_iff sampleLayout 4097 sampleKmem).2 "kfree" sampleKmem rfl⟩

theorem freerangeLoop_total (L : Layout) (hfit : L.PHYSTOP + 2 * PGSIZE ≤ W64) :
    ∀ (fuel p : Nat) (k : Kmem), p % PGSIZE = 0 → L.end_ ≤ p → p < L.PHYSTOP + PGSIZE →
      (L.PHYSTOP - p) / PGSIZE < fuel →
      ∃ tr k1, freerangeLoop L L.PHYSTOP fuel p k = some (tr, Run.done k1) ∧
        ∀ a, a ∈ tr ↔ a % PGSIZE = 0 ∧ p ≤ a ∧ a + PGSIZE ≤ L.PHYSTOP := by
  intro fuel
  induction fuel with
  | zero =>
    intro p k _ _ _ h
    exact absurd h (Nat.not_lt_zero _)
  | succ n ih =>
    intro p k hal hge hlt hfuel
    have hw : (p + PGSIZE) % W64 = p + PGSIZE := by
      apply Nat.mod_eq_of_lt
      unfold PGSIZE at *
      omega
    rw [freerangeLoop, hw]
    by_cases hchk : p + PGSIZE ≤ L.PHYSTOP
    · have hfr : isFrame L p := ⟨hal, hge, by unfold PGSIZE at hchk; omega⟩
      rw [if_pos hchk, kfree_done L p k hfr]
      have hfuel1 : (L.PHYSTOP - (p + PGSIZE)) / PGSIZE < n := by
        unfold PGSIZE at *
        omega
      obtain ⟨tr1, k1, h1, h2⟩ := ih (p + PGSIZE) (kfreeLink p (kfreeFill p k))
        (by unfold PGSIZE at *; omega) (by omega) (by unfold PGSIZE at *; omega) hfuel1
      refine ⟨p :: tr1, k1, ?_, ?_⟩
      · show Option.map _ (freerangeLoop L L.PHYSTOP n (p + PGSIZE)
          (kfreeLink p (kfreeFill p k))) = _
        rw [h1]
        rfl
      intro a
      rw [List.mem_cons, h2 a]
      unfold PGSIZE at *
      omega
    · rw [if_neg hchk]
      refine ⟨[], k, rfl, ?_⟩
      intro a
      simp only [List.not_mem_nil, false_iff]
      unfold PGSIZE at *
      omega

theorem PGROUNDUP_spec (sz : Nat) (h : sz + PGSIZE ≤ W64) :
    PGROUNDUP sz % PGSIZE = 0 ∧ sz ≤ PGROUNDUP sz ∧ PGROUNDUP sz < sz + PGSIZE := by
  have hx : (sz + PGSIZE - 1) % W64 = sz + PGSIZE - 1 := by
    apply Nat.mod_eq_of_lt
    unfold PGSIZE at *
    omega
  simp only [PGROUNDUP, hx]
  unfold PGSIZE at *
  omega

theorem freememLoop_chain (m : Mem) : ∀ (l : List Nat) (fuel p : Nat) (cnt : Int),
    Chain m p l → l.length < fuel → 0 ≤ cnt → cnt + l.length < 2 ^ 31 →
    freememLoop m fuel p cnt = some (cnt + l.length)
  | [], fuel, p, cnt, hc, hf, _, _ => by
    have hp : p = 0 := hc
    cases fuel with
    | zero => simp at hf
    | succ n => simp [freememLoop, hp]
  | a :: l, fuel, p, cnt, hc, hf, h0, hlt => by
    cases fuel with
    | zero => simp at hf
    | succ n =>
      obtain ⟨hp0, hpa, hrest⟩ := hc
      simp only [List.length_cons, Nat.cast_add, Nat.cast_one] at hlt hf
      have h32 : toInt32 (cnt + 1) = cnt + 1 := by
        unfold toInt32
        omega
      rw [freememLoop, if_pos hp0, hpa, h32,
        freememLoop_chain m l n (load64 m a) (cnt + 1) hrest (by omega) (by omega) (by omega)]
      simp only [List.length_cons, Nat.cast_add, Nat.cast_one]
      congr 1
      omega

theorem ladder_length : ∀ (n p : Nat), (ladder n p).length = n
  | 0, _ => rfl
  | n + 1, p => by rw [ladder, List.length_cons, ladder_length n (p + PGSIZE)]

theorem ladder_ge : ∀ (n p a : Nat), a ∈ ladder n p → p ≤ a
  | 0, _, _, h => by simp [ladder] at h
  | n + 1, p, a, h => by
    rw [ladder, List.mem_cons] at h
    rcases h with rfl | h
    · exact Nat.le_refl _
    · have := ladder_ge n (p + PGSIZE) a h
      omega

theorem ladder_nodup : ∀ (n p : Nat), (ladder n p).Nodup
  | 0, _ => List.nodup_nil
  | n + 1, p => by
    rw [ladder, List.nodup_cons]
    refine ⟨fun h => ?_, ladder_nodup n (p + PGSIZE)⟩
    have := ladder_ge n (p + PGSIZE) p h
    unfold PGSIZE at this
    omega

theorem load64_ladderMem (top p : Nat) (hal : p % PGSIZE = 0) (htop : top ≤ W64) :
    load64 (ladderMem top) p = if p + PGSIZE < top then p + PGSIZE else 0 := by
  apply load64_bytes
  · split
    · omega
    · unfold W64
      omega
  · intro i hi
    have h1 : (p + i) % PGSIZE = i := by
      unfold PGSIZE at *
      omega
    have h2 : i < 8 := hi
    simp only [ladderMem, h1, if_pos h2, Nat.add_sub_cancel]

theorem ladder_chain (top : Nat) (htop : top ≤ W64) : ∀ (n p : Nat), p % PGSIZE = 0 → 0 < p →
    top = p + (n + 1) * PGSIZE → Chain (ladderMem top) p (ladder (n + 1) p)
  | 0, p, hal, hp, ht => by
    refine ⟨by omega, rfl, ?_⟩
    rw [load64_ladderMem top p hal htop, if_neg (by omega)]
    rfl
  | n + 1, p, hal, hp, ht => by
    refine ⟨by omega, rfl, ?_⟩
    rw [load64_ladderMem top p hal htop, if_pos (by unfold PGSIZE at *; omega)]
    exact ladder_chain top htop n (p + PGSIZE) (by unfold PGSIZE at *; omega) (by omega)
      (by rw [ht]; ring)

/-- C5 (initialisation, amended). For `0 < end <= PHYSTOP <= 2^64 - 8192`, `kinit` on an
empty allocator returns without a panic once the fuel exceeds `PHYSTOP / 4096`; it calls
`kfree` exactly once on every 4096-aligned address `a` with `end <= a` and
`a + 4096 <= PHYSTOP` (the whole frames of the range) and on no other address, and the
free list it leaves is the chain of exactly those addresses, last freed first. -/
theorem kinit_registers_whole_frames (L : Layout) (m : Mem) (fuel : Nat) (hend : 0 < L.end_)
    (hle : L.end_ ≤ L.PHYSTOP) (hfit : L.PHYSTOP + 2 * PGSIZE ≤ W64)
    (hfuel : L.PHYSTOP / PGSIZE < fuel) :
    ∃ tr k, kinit L fuel (emptyKmem m) = some (tr, Run.done k) ∧ tr.Nodup ∧
      (∀ a, a ∈ tr ↔ a % PGSIZE = 0 ∧ L.end_ ≤ a ∧ a + PGSIZE ≤ L.PHYSTOP) ∧
      Chain k.mem k.freelist tr.reverse := by
  have hfit1 : L.PHYSTOP ≤ W64 := by omega
  obtain ⟨r1, r2, r3⟩ := PGROUNDUP_spec L.end_ (by unfold PGSIZE at *; omega)
  have hdiv : (L.PHYSTOP - PGROUNDUP L.end_) / PGSIZE < fuel :=
    Nat.lt_of_le_of_lt (Nat.div_le_div_right (Nat.sub_le _ _)) hfuel
  obtain ⟨tr, k, h1, h2⟩ := freerangeLoop_total L hfit fuel (PGROUNDUP L.end_) (emptyKmem m)
    r1 r2 (by omega) hdiv
  obtain ⟨_, g2, g3, _, _⟩ := freerangeLoop_inv L hend hfit1 fuel _ (emptyKmem m) [] tr k
    (by unfold emptyKmem W64; simp) rfl List.nodup_nil (by simp) h1
  rw [List.append_nil] at g2 g3
  refine ⟨tr, k, h1, List.nodup_reverse.mp g3, ?_, g2⟩
  intro a
  rw [h2 a]
  unfold PGSIZE at *
  omega

/-- Witness of C5: the three-frame machine. -/
theorem kinit_registers_whole_frames_witness :
    (0 < sampleLayout.end_ ∧ sampleLayout.end_ ≤ sampleLayout.PHYSTOP ∧
      sampleLayout.PHYSTOP + 2 * PGSIZE ≤ W64 ∧ sampleLayout.PHYSTOP / PGSIZE < 8) ∧
    ∃ tr k, kinit sampleLayout 8 (emptyKmem zeroMem) = some (tr, Run.done k) ∧ tr.Nodup ∧
      (∀ a, a ∈ tr ↔ a % PGSIZE = 0 ∧ sampleLayout.end_ ≤ a ∧ a + PGSIZE ≤ sampleLayout.PHYSTOP) ∧
      Chain k.mem k.freelist tr.reverse :=
  ⟨⟨by decide, by decide, by decide, by decide⟩,
    kinit_registers_whole_frames sampleLayout zeroMem 8 (by decide) (by decide) (by decide)
      (by decide)⟩

/-- C5 as stated fails. With `end = 4096` and `PHYSTOP = 12289` the address 12288 is
4096-aligned and lies in `[end, PHYSTOP)`, yet `kinit` never hands it to `kfree`: the
frame would reach past `PHYSTOP`. With `end = 0` the address 0 is handed to `kfree`, but
being the null pointer it is not on the free list left. With
`end = PHYSTOP = 2^64 - 4096` the loop test wraps around and `kinit` panics. -/
theorem kinit_every_aligned_address_fails :
    ((4096 ≤ 12289 ∧ 12288 % 4096 = 0 ∧ 4096 ≤ 12288 ∧ 12288 < 12289) ∧
      ∃ k, kinit { end_ := 4096, PHYSTOP := 12289 } 8 (emptyKmem zeroMem) =
          some ([4096, 8192], Run.done k) ∧
        Chain k.mem k.freelist [8192, 4096] ∧ 12288 ∉ [4096, 8192]) ∧
    (∃ k, kinit { end_ := 0, PHYSTOP := 8192 } 8 (emptyKmem zeroMem) =
          some ([0, 4096], Run.done k) ∧
        Chain k.mem k.freelist [4096] ∧ 0 ∉ [4096]) ∧
    kinit { end_ := 18446744073709547520, PHYSTOP := 18446744073709547520 } 8
        (emptyKmem zeroMem) =
      some ([18446744073709547520], Run.panic "kfree" (emptyKmem zeroMem)) := by
  exact ⟨⟨by decide, _, rfl, by decide, by decide⟩, ⟨_, rfl, by decide, by decide⟩, rfl⟩

/-- Below the overflow `freemem` is exact: for a free list that is a chain of `n` frames
with `n < 2^19` (so that `n * 4096` fits the `int` counter), it returns `n * 4096` once
the fuel exceeds `n`, and leaves the allocator state as it was. -/
theorem freemem_counts (k : Kmem) (l : List Nat) (fuel : Nat) (hc : Chain k.mem k.freelist l)
    (hn : l.length < 2 ^ 19) (hf : l.length < fuel) :
    freemem fuel k = some (l.length * PGSIZE, k) := by
  have hloop := freememLoop_chain k.mem l fuel k.freelist 0 hc hf (Int.le_refl 0) (by omega)
  unfold freemem
  rw [hloop]
  simp only [Option.map_some', zero_add, Option.some.injEq, Prod.mk.injEq, and_true]
  have h32 : toInt32 ((l.length : Int) * (PGSIZE : Int)) = ((l.length * PGSIZE : Nat) : Int) := by
    unfold toInt32 PGSIZE
    push_cast
    omega
  rw [h32]
  unfold intToU64 PGSIZE
  omega

/-- Example of `freemem_counts`: the three frames of the sample allocator. -/
theorem freemem_counts_witness :
    (Chain sampleKmem.mem sampleKmem.freelist [12288, 8192, 4096] ∧
      [12288, 8192, 4096].length < 2 ^ 19 ∧ [12288, 8192, 4096].length < 4) ∧
    freemem 4 sampleKmem = some ([12288, 8192, 4096].length * PGSIZE, sampleKmem) :=
  ⟨⟨by decide, by decide, by decide⟩,
    freemem_counts sampleKmem [12288, 8192, 4096] 4 (by decide) (by decide) (by decide)⟩

/-- C6 (free-byte count): the code breaks it. The free list of `2^19` consecutive frames
from 4096 on is a well-formed chain without repetition, for which the claim promises
`2^19 * 4096 = 2^31` bytes. `freemem`, declared `uint64`, returns `2^64 - 2^31`: the
product `cnt *= PGSIZE` is computed in the `int` counter and overflows before it is
widened. -/
theorem freemem_int_overflow :
    Chain (ladderMem 2147487744) 4096 (ladder 524288 4096) ∧
    (ladder 524288 4096).Nodup ∧ (ladder 524288 4096).length = 524288 ∧
    freemem 524289 { mem := ladderMem 2147487744, freelist := 4096 } =
      some (18446744071562067968, { mem := ladderMem 2147487744, freelist := 4096 }) ∧
    18446744071562067968 ≠ 524288 * 4096 := by
  have hc : Chain (ladderMem 2147487744) 4096 (ladder (524287 + 1) 4096) :=
    ladder_chain 2147487744 (by unfold W64; omega) 524287 4096 (by decide) (by decide)
      (by decide)
  refine ⟨hc, ladder_nodup _ _, ladder_length _ _, ?_, by decide⟩
  have hloop := freememLoop_chain (ladderMem 2147487744) (ladder (524287 + 1) 4096) 524289
    4096 0 hc (by rw [ladder_length]; omega) (Int.le_refl 0)
    (by rw [ladder_length]; omega)
  rw [ladder_length] at hloop
  unfold freemem
  rw [hloop]
  rfl

/-! ## The trap paths -/

theorem and_two_pow_ne_zero (x i : Nat) : x &&& 2 ^ i ≠ 0 ↔ x.testBit i = true := by
  constructor
  · intro h
    by_contra hb
    apply h
    apply Nat.eq_of_testBit_eq
    intro j
    rw [Nat.testBit_and, Nat.testBit_two_pow, Nat.zero_testBit]
    by_cases hij : i = j
    · subst hij
      simp [hb]
    · simp [hij]
  · intro hb h
    have h1 : (x &&& 2 ^ i).testBit i = true := by
      rw [Nat.testBit_and, Nat.testBit_two_pow_self, hb]
      rfl
    rw [h, Nat.zero_testBit] at h1
    exact Bool.false_ne_true h1

theorem scause_external_iff (x : Nat) :
    (x &&& 0x8000000000000000 ≠ 0 ∧ x &&& 0xff = 9) ↔ (x.testBit 63 = true ∧ x % 256 = 9) := by
  have h1 : (0x8000000000000000 : Nat) = 2 ^ 63 := by norm_num
  have h2 : (0xff : Nat) = 2 ^ 8 - 1 := by norm_num
  rw [h1, h2, and_two_pow_ne_zero, Nat.and_pow_two_sub_one_eq_mod]

theorem intr_get_after_on (h : Hart) (x : Nat) (hx : h.sstatus = x ||| SSTATUS_SIE) :
    intr_get h = true := by
  have h1 : (x ||| 2) &&& 2 ^ 1 ≠ 0 := by
    rw [and_two_pow_ne_zero, Nat.testBit_or]
    have h2 : Nat.testBit 2 1 = true := by decide
    rw [h2, Bool.or_true]
  simp only [intr_get, hx, SSTATUS_SIE]
  simpa using h1

theorem usertrapret_trace (E : Env) (w : World) :
    ∃ rest, (usertrapret E w).2.trace = w.trace ++ rest ∧ Event.syscall ∉ rest ∧
      Event.intr_on ∉ rest ∧ Event.yield ∉ rest ∧ Event.exit (-1) ∉ rest ∧
      rest.count Event.usertrapret = 1 := by
  unfold usertrapret
  by_cases hc : w.h.curproc = false
  · refine ⟨[Event.usertrapret, Event.intr_off,
      Event.w_stvec (add64 E.TRAMPOLINE (sub64 E.uservec E.trampoline))], ?_, ?_⟩
    · simp [hc, World.emit, World.intr_off, World.w_stvec]
    · simp
  · refine ⟨[Event.usertrapret, Event.intr_off,
      Event.w_stvec (add64 E.TRAMPOLINE (sub64 E.uservec E.trampoline)),
      Event.tfStore TfField.kernel_satp w.h.satp,
      Event.tfStore TfField.kernel_sp (add64 w.h.p.kstack PGSIZE),
      Event.tfStore TfField.kernel_trap E.usertrapAddr,
      Event.tfStore TfField.kernel_hartid w.h.tp,
      Event.w_sstatus (w.h.sstatus &&& not64 SSTATUS_SIE &&& not64 SSTATUS_SPP ||| SSTATUS_SPIE),
      Event.w_sepc w.h.p.trapframe.epc,
      Event.userret (add64 E.TRAMPOLINE (sub64 E.userret E.trampoline)) E.TRAPFRAME
        (E.MAKE_SATP w.h.p.pagetable)], ?_, ?_⟩
    · simp [hc, World.emit, World.intr_off, World.w_stvec, World.tfStore, World.w_sstatus,
        World.w_sepc, trapframe.set]
    · simp

theorem usertrapTail_trace (E : Env) (d : Int) (w : World) :
    ∃ rest, (usertrapTail E d w).2.trace = w.trace ++ rest ∧ Event.syscall ∉ rest ∧
      Event.intr_on ∉ rest := by
  unfold usertrapTail
  by_cases hk : w.h.p.killed ≠ 0
  · rw [if_pos hk]
    exact ⟨[Event.exit (-1)], rfl, by simp, by simp⟩
  · rw [if_neg hk]
    by_cases hd : d = 2
    · obtain ⟨rest, h1, h2, h3, _⟩ := usertrapret_trace E (w.call E.yield Event.yield)
      refine ⟨Event.yield :: rest, ?_, by simp [h2], by simp [h3]⟩
      rw [if_pos hd, h1]
      simp only [World.call, List.append_assoc, List.singleton_append]
    · obtain ⟨rest, h1, h2, h3, _⟩ := usertrapret_trace E w
      exact ⟨rest, by simp only [if_neg hd, h1], h2, h3⟩

theorem usertrap_syscall_eq (E : Env) (w : World) (hu : w.h.sstatus &&& SSTATUS_SPP = 0)
    (hp : w.h.curproc = true) (hs : w.h.scause = 8) (hk : w.h.p.killed = 0) :
    usertrap E w =
      match E.syscall { w.h with
          stvec := E.kernelvec
          sstatus := w.h.sstatus ||| SSTATUS_SIE
          p := { w.h.p with trapframe := { w.h.p.trapframe with epc := add64 w.h.sepc 4 } } } with
      | none => (Outcome.noreturn,
          { h := { w.h with
              stvec := E.kernelvec
              sstatus := w.h.sstatus ||| SSTATUS_SIE
              p := { w.h.p with trapframe := { w.h.p.trapframe with epc := add64 w.h.sepc 4 } } },
            trace := w.trace ++ [Event.w_stvec E.kernelvec, Event.tfStore TfField.epc w.h.sepc,
              Event.tfStore TfField.epc (add64 w.h.sepc 4), Event.intr_on, Event.syscall] })
      | some h1 => usertrapTail E 0
          { h := h1,
            trace := w.trace ++ [Event.w_stvec E.kernelvec, Event.tfStore TfField.epc w.h.sepc,
              Event.tfStore TfField.epc (add64 w.h.sepc 4), Event.intr_on, Event.syscall] } := by
  unfold usertrap
  simp [hu, hp, hs, hk, World.w_stvec, World.tfStore, World.intr_on, World.emit, trapframe.set]

/-! ## Claims on the trap paths -/

/-- C7 (syscall pc-advance). When `usertrap` is entered from user mode for a process that
is not killed, with `scause = 8` and saved pc `X` in `sepc`, its actions begin: `stvec`
is set, `X` is stored in the trap frame's `epc`, then `X + 4` (64-bit addition, equal to
`X + 4` whenever that fits 64 bits) is stored there, then interrupts are enabled, then
`syscall` is called, on a hart state whose trap frame holds `X + 4` and whose interrupts
are enabled. Nothing after that
calls `syscall` or enables interrupts again, so `syscall` is invoked exactly once. -/
theorem usertrap_syscall_pc_advance (E : Env) (w : World)
    (hu : w.h.sstatus &&& SSTATUS_SPP = 0) (hp : w.h.curproc = true) (hs : w.h.scause = 8)
    (hk : w.h.p.killed = 0) :
    ∃ h0 rest,
      h0.p.trapframe.epc = add64 w.h.sepc 4 ∧ intr_get h0 = true ∧
      (usertrap E w).2.trace =
        (w.trace ++ [Event.w_stvec E.kernelvec, Event.tfStore TfField.epc w.h.sepc,
          Event.tfStore TfField.epc (add64 w.h.sepc 4), Event.intr_on, Event.syscall]) ++ rest ∧
      Event.syscall ∉ rest ∧ Event.intr_on ∉ rest ∧
      (usertrap E w).2.trace.count Event.syscall = w.trace.count Event.syscall + 1 ∧
      (match E.syscall h0 with
        | none => (usertrap E w).1 = Outcome.noreturn
        | some h1 => usertrap E w = usertrapTail E 0
            { h := h1,
              trace := w.trace ++ [Event.w_stvec E.kernelvec,
                Event.tfStore TfField.epc w.h.sepc,
                Event.tfStore TfField.epc (add64 w.h.sepc 4), Event.intr_on, Event.syscall] }) ∧
      (w.h.sepc + 4 < W64 → add64 w.h.sepc 4 = w.h.sepc + 4) := by
  have key := usertrap_syscall_eq E w hu hp hs hk
  refine ⟨{ w.h with
      stvec := E.kernelvec
      sstatus := w.h.sstatus ||| SSTATUS_SIE
      p := { w.h.p with trapframe := { w.h.p.trapframe with epc := add64 w.h.sepc 4 } } }, ?_⟩
  have hadd : w.h.sepc + 4 < W64 → add64 w.h.sepc 4 = w.h.sepc + 4 :=
    fun h => Nat.mod_eq_of_lt h
  cases hsys : E.syscall { w.h with
      stvec := E.kernelvec
      sstatus := w.h.sstatus ||| SSTATUS_SIE
      p := { w.h.p with trapframe := { w.h.p.trapframe with epc := add64 w.h.sepc 4 } } } with
  | none =>
    rw [hsys] at key
    refine ⟨[], rfl, intr_get_after_on _ w.h.sstatus rfl, ?_, by simp, by simp, ?_, ?_, hadd⟩
    · rw [key, List.append_nil]
    · rw [key]
      simp
    · rw [key]
  | some h1 =>
    rw [hsys] at key
    obtain ⟨rest, h2, h3, h4⟩ := usertrapTail_trace E 0
      { h := h1,
        trace := w.trace ++ [Event.w_stvec E.kernelvec, Event.tfStore TfField.epc w.h.sepc,
          Event.tfStore TfField.epc (add64 w.h.sepc 4), Event.intr_on, Event.syscall] }
    refine ⟨rest, rfl, intr_get_after_on _ w.h.sstatus rfl, ?_, h3, h4, ?_, key, hadd⟩
    · rw [key, h2]
    · rw [key, h2]
      simp [List.count_eq_zero.mpr h3]

/-- Witness of C7: a system call at pc 4660. -/
theorem usertrap_syscall_pc_advance_witness :
    ((sampleWorld 8).h.sstatus &&& SSTATUS_SPP = 0 ∧ (sampleWorld 8).h.curproc = true ∧
      (sampleWorld 8).h.scause = 8 ∧ (sampleWorld 8).h.p.killed = 0) ∧
    ∃ h0 rest,
      h0.p.trapframe.epc = add64 (sampleWorld 8).h.sepc 4 ∧ intr_get h0 = true ∧
      (usertrap (sampleEnv 0) (sampleWorld 8)).2.trace =
        ((sampleWorld 8).trace ++ [Event.w_stvec (sampleEnv 0).kernelvec,
          Event.tfStore TfField.epc (sampleWorld 8).h.sepc,
          Event.tfStore TfField.epc (add64 (sampleWorld 8).h.sepc 4), Event.intr_on,
          Event.syscall]) ++ rest ∧
      Event.syscall ∉ rest ∧ Event.intr_on ∉ rest ∧
      (usertrap (sampleEnv 0) (sampleWorld 8)).2.trace.count Event.syscall =
        (sampleWorld 8).trace.count Event.syscall + 1 ∧
      (match (sampleEnv 0).syscall h0 with
        | none => (usertrap (sampleEnv 0) (sampleWorld 8)).1 = Outcome.noreturn
        | some h1 => usertrap (sampleEnv 0) (sampleWorld 8) = usertrapTail (sampleEnv 0) 0
            { h := h1,
              trace := (sampleWorld 8).trace ++ [Event.w_stvec (sampleEnv 0).kernelvec,
                Event.tfStore TfField.epc (sampleWorld 8).h.sepc,
                Event.tfStore TfField.epc (add64 (sampleWorld 8).h.sepc 4), Event.intr_on,
                Event.syscall] }) ∧
      ((sampleWorld 8).h.sepc + 4 < W64 →
        add64 (sampleWorld 8).h.sepc 4 = (sampleWorld 8).h.sepc + 4) :=
  ⟨⟨by decide, rfl, rfl, rfl⟩,
    usertrap_syscall_pc_advance (sampleEnv 0) (sampleWorld 8) (by decide) rfl rfl rfl⟩

/-- C8 (killed at entry). When `usertrap` is entered from user mode with `scause = 8` for
a process whose killed flag is set, it ends in `exit(-1)`. All it does before is set
`stvec` and save the user pc: it does not call `syscall`, does not enable interrupts
(`sstatus` is as at entry), does not yield and does not reach `usertrapret`. -/
theorem usertrap_killed_at_entry (E : Env) (w : World)
    (hu : w.h.sstatus &&& SSTATUS_SPP = 0) (hp : w.h.curproc = true) (hs : w.h.scause = 8)
    (hk : w.h.p.killed ≠ 0) :
    (usertrap E w).1 = Outcome.exited (-1) ∧
    (usertrap E w).2.trace = w.trace ++ [Event.w_stvec E.kernelvec,
      Event.tfStore TfField.epc w.h.sepc, Event.exit (-1)] ∧
    (usertrap E w).2.h.sstatus = w.h.sstatus ∧
    ∀ e, e ∈ [Event.w_stvec E.kernelvec, Event.tfStore TfField.epc w.h.sepc, Event.exit (-1)] →
      e ≠ Event.syscall ∧ e ≠ Event.intr_on ∧ e ≠ Event.yield ∧ e ≠ Event.usertrapret := by
  refine ⟨?_, ?_, ?_, ?_⟩
  · unfold usertrap
    simp [hu, hp, hs, hk, World.w_stvec, World.tfStore, World.emit]
  · unfold usertrap
    simp [hu, hp, hs, hk, World.w_stvec, World.tfStore, World.emit]
  · unfold usertrap
    simp [hu, hp, hs, hk, World.w_stvec, World.tfStore, World.emit]
  · intro e he
    simp only [List.mem_cons, List.mem_singleton, List.not_mem_nil, or_false] at he
    rcases he with rfl | rfl | rfl <;> simp

/-- Witness of C8: the sample process with its killed flag set. -/
theorem usertrap_killed_at_entry_witness :
    ((sampleHart 8).sstatus &&& SSTATUS_SPP = 0 ∧ (sampleHart 8).curproc = true ∧
      (sampleHart 8).scause = 8 ∧ ({ sampleProc with killed := 1 } : proc).killed ≠ 0) ∧
    ((usertrap (sampleEnv 0)
      { h := { sampleHart 8 with p := { sampleProc with killed := 1 } }, trace := [] }).1 =
        Outcome.exited (-1) ∧
    (usertrap (sampleEnv 0)
      { h := { sampleHart 8 with p := { sampleProc with killed := 1 } }, trace := [] }).2.trace =
        [] ++ [Event.w_stvec (sampleEnv 0).kernelvec,
          Event.tfStore TfField.epc (sampleHart 8).sepc, Event.exit (-1)] ∧
    (usertrap (sampleEnv 0)
      { h := { sampleHart 8 with p := { sampleProc with killed := 1 } },
        trace := [] }).2.h.sstatus = (sampleHart 8).sstatus ∧
    ∀ e, e ∈ [Event.w_stvec (sampleEnv 0).kernelvec,
        Event.tfStore TfField.epc (sampleHart 8).sepc, Event.exit (-1)] →
      e ≠ Event.syscall ∧ e ≠ Event.intr_on ∧ e ≠ Event.yield ∧ e ≠ Event.usertrapret) :=
  ⟨⟨by decide, rfl, rfl, by decide⟩,
    usertrap_killed_at_entry (sampleEnv 0)
      { h := { sampleHart 8 with p := { sampleProc with killed := 1 } }, trace := [] }
      (by decide) rfl rfl (by decide)⟩

theorem devintr_fst (E : Env) (w : World) :
    (devintr E w).1 =
      if w.h.scause.testBit 63 = true ∧ w.h.scause % 256 = 9 then 1
      else if w.h.scause = 0x8000000000000001 then 2 else 0 := by
  unfold devintr
  simp only [scause_external_iff]
  split
  · rfl
  · split
    · rfl
    · rfl

/-- C9 (recognition code). `devintr` returns 1 exactly when bit 63 of `scause` is set and
its low 8 bits are 9, returns 2 exactly when `scause` is `0x8000000000000001`, and
returns 0 for every other `scause`; so two runs with the same `scause` return the same
code whatever the rest of the machine and the devices do. When it returns 0 the world is
as before: no claim, no complete, no handler call, `ticks` and `sip` unchanged. -/
theorem devintr_recognition_code (E : Env) (w : World) :
    ((devintr E w).1 = 1 ↔ (w.h.scause.testBit 63 = true ∧ w.h.scause % 256 = 9)) ∧
    ((devintr E w).1 = 2 ↔ w.h.scause = 0x8000000000000001) ∧
    ((devintr E w).1 = 0 ↔
      (¬ (w.h.scause.testBit 63 = true ∧ w.h.scause % 256 = 9) ∧
        w.h.scause ≠ 0x8000000000000001)) ∧
    (∀ (E1 : Env) (w1 : World), w1.h.scause = w.h.scause → (devintr E1 w1).1 = (devintr E w).1) ∧
    ((devintr E w).1 = 0 →
      (devintr E w).2 = w ∧ (devintr E w).2.trace = w.trace ∧
        (devintr E w).2.h.ticks = w.h.ticks ∧ (devintr E w).2.h.sip = w.h.sip) := by
  have hdis : w.h.scause = 0x8000000000000001 →
      ¬ (w.h.scause.testBit 63 = true ∧ w.h.scause % 256 = 9) := by
    intro h hc
    rw [h] at hc
    exact absurd hc.2 (by decide)
  refine ⟨?_, ?_, ?_, ?_, ?_⟩
  · rw [devintr_fst]
    by_cases h1 : w.h.scause.testBit 63 = true ∧ w.h.scause % 256 = 9
    · simp [h1]
    · by_cases h2 : w.h.scause = 0x8000000000000001
      · simp [h1, h2]
      · simp [h1, h2]
  · rw [devintr_fst]
    by_cases h2 : w.h.scause = 0x8000000000000001
    · simp [hdis h2, h2]
    · by_cases h1 : w.h.scause.testBit 63 = true ∧ w.h.scause % 256 = 9
      · simp [h1, h2]
      · simp [h1, h2]
  · rw [devintr_fst]
    by_cases h1 : w.h.scause.testBit 63 = true ∧ w.h.scause % 256 = 9
    · simp [h1]
    · by_cases h2 : w.h.scause = 0x8000000000000001
      · simp [h1, h2]
      · simp [h1, h2]
  · intro E1 w1 h
    rw [devintr_fst, devintr_fst, h]
  · intro h0
    have hw : (devintr E w).2 = w := by
      rw [devintr_fst] at h0
      unfold devintr
      simp only [scause_external_iff]
      by_cases h1 : w.h.scause.testBit 63 = true ∧ w.h.scause % 256 = 9
      · rw [if_pos h1] at h0
        exact absurd h0 (by decide)
      · rw [if_neg h1] at h0 ⊢
        by_cases h2 : w.h.scause = 0x8000000000000001
        · rw [if_pos h2] at h0
          exact absurd h0 (by decide)
        · rw [if_neg h2]
    rw [hw]
    exact ⟨rfl, rfl, rfl, rfl⟩

/-- Witness of C9: a page-fault cause (13) is not recognised and nothing happens. -/
theorem devintr_recognition_code_witness :
    (devintr (sampleEnv 0) (sampleWorld 13)).1 = 0 ∧
    ((devintr (sampleEnv 0) (sampleWorld 13)).2 = sampleWorld 13 ∧
      (devintr (sampleEnv 0) (sampleWorld 13)).2.trace = (sampleWorld 13).trace ∧
      (devintr (sampleEnv 0) (sampleWorld 13)).2.h.ticks = (sampleWorld 13).h.ticks ∧
      (devintr (sampleEnv 0) (sampleWorld 13)).2.h.sip = (sampleWorld 13).h.sip) :=
  ⟨by decide, (devintr_recognition_code (sampleEnv 0) (sampleWorld 13)).2.2.2.2 (by decide)⟩

/-- C10 (interrupt completion). On an external-interrupt cause, with PLIC source numbers
`UART0_IRQ` and `VIRTIO0_IRQ` that are non-zero and distinct, `devintr` returns 1 and its
actions are exactly: one `plic_claim`; then, if the id claimed is 0, nothing more;
otherwise the handler of that id (`uartintr` for `UART0_IRQ`, `virtio_disk_intr` for
`VIRTIO0_IRQ`, a printed message and no handler for any other id) followed by one
`plic_complete` of the same id. -/
theorem devintr_claim_complete (E : Env) (w : World)
    (hext : w.h.scause.testBit 63 = true ∧ w.h.scause % 256 = 9)
    (hU : E.UART0_IRQ ≠ 0) (hV : E.VIRTIO0_IRQ ≠ 0) (hUV : E.UART0_IRQ ≠ E.VIRTIO0_IRQ) :
    (devintr E w).1 = 1 ∧
    ((E.plic_claim w.h).1 = 0 →
      (devintr E w).2.trace = w.trace ++ [Event.plic_claim 0]) ∧
    ((E.plic_claim w.h).1 = E.UART0_IRQ →
      (devintr E w).2.trace = w.trace ++ [Event.plic_claim E.UART0_IRQ, Event.uartintr,
        Event.plic_complete E.UART0_IRQ]) ∧
    ((E.plic_claim w.h).1 = E.VIRTIO0_IRQ →
      (devintr E w).2.trace = w.trace ++ [Event.plic_claim E.VIRTIO0_IRQ,
        Event.virtio_disk_intr, Event.plic_complete E.VIRTIO0_IRQ]) ∧
    (∀ irq, (E.plic_claim w.h).1 = irq → irq ≠ 0 → irq ≠ E.UART0_IRQ → irq ≠ E.VIRTIO0_IRQ →
      (devintr E w).2.trace = w.trace ++ [Event.plic_claim irq,
        Event.printf "unexpected interrupt irq=%d\n" [irq], Event.plic_complete irq]) := by
  have hd : devintr E w = devintrExternal E w := by
    unfold devintr
    simp only [scause_external_iff]
    rw [if_pos hext]
  rw [hd]
  refine ⟨rfl, ?_, ?_, ?_, ?_⟩
  · intro h0
    simp [devintrExternal, h0, hU.symm, hV.symm]
  · intro h0
    simp [devintrExternal, h0, hU, World.call]
  · intro h0
    simp [devintrExternal, h0, hV, hUV.symm, World.call]
  · intro irq h0 h1 h2 h3
    simp [devintrExternal, h0, h1, h2, h3, World.call, World.emit]

/-- Witness of C10: the UART interrupts. -/
theorem devintr_claim_complete_witness :
    (((sampleWorld 9223372036854775817).h.scause.testBit 63 = true ∧
        (sampleWorld 9223372036854775817).h.scause % 256 = 9) ∧
      (sampleEnv 10).UART0_IRQ ≠ 0 ∧ (sampleEnv 10).VIRTIO0_IRQ ≠ 0 ∧
      (sampleEnv 10).UART0_IRQ ≠ (sampleEnv 10).VIRTIO0_IRQ ∧
      ((sampleEnv 10).plic_claim (sampleWorld 9223372036854775817).h).1 =
        (sampleEnv 10).UART0_IRQ) ∧
    (devintr (sampleEnv 10) (sampleWorld 9223372036854775817)).2.trace =
      (sampleWorld 9223372036854775817).trace ++ [Event.plic_claim (sampleEnv 10).UART0_IRQ,
        Event.uartintr, Event.plic_complete (sampleEnv 10).UART0_IRQ] :=
  ⟨⟨⟨by decide, by decide⟩, by decide, by decide, by decide, rfl⟩,
    (devintr_claim_complete (sampleEnv 10) (sampleWorld 9223372036854775817)
      ⟨by decide, by decide⟩ (by decide) (by decide) (by decide)).2.2.1 rfl⟩

/-! ## Bits of the status registers -/

theorem not64_bit1 : not64 2 = (2 ^ 64 - 1) ^^^ 2 ^ 1 := by decide

theorem not64_bit8 : not64 256 = (2 ^ 64 - 1) ^^^ 2 ^ 8 := by decide

theorem testBit_and_mask (x k i : Nat) :
    (x &&& ((2 ^ 64 - 1) ^^^ 2 ^ k)).testBit i =
      (x.testBit i && (decide (i < 64) ^^ decide (k = i))) := by
  rw [Nat.testBit_and, Nat.testBit_xor, Nat.testBit_two_pow_sub_one, Nat.testBit_two_pow]

theorem testBit_clear1 (x i : Nat) (hi : i < 64) :
    (x &&& not64 2).testBit i = (x.testBit i && decide (i ≠ 1)) := by
  rw [not64_bit1, testBit_and_mask]
  by_cases h : i = 1
  · subst h
    simp
  · have h1 : ¬ (1 = i) := fun e => h e.symm
    simp [hi, h, h1]

theorem testBit_clear8 (x i : Nat) (hi : i < 64) :
    (x &&& not64 256).testBit i = (x.testBit i && decide (i ≠ 8)) := by
  rw [not64_bit8, testBit_and_mask]
  by_cases h : i = 8
  · subst h
    simp
  · have h1 : ¬ (8 = i) := fun e => h e.symm
    simp [hi, h, h1]

theorem devintr_timer_eq (E : Env) (w : World) (ht : w.h.scause = 0x8000000000000001) :
    devintr E w = devintrTimer E w := by
  have hne : ¬ (w.h.scause.testBit 63 = true ∧ w.h.scause % 256 = 9) := by
    rw [ht]
    decide
  unfold devintr
  simp only [scause_external_iff]
  rw [if_neg hne, if_pos ht]

/-! ## Claims on the timer tick and the trap preconditions -/

/-- C11 (timer tick, amended). When `devintr` handles a software (timer) interrupt, and
`wakeup` writes neither `ticks` nor `sip`: on hart 0 the `uint` counter becomes
`(ticks + 1) mod 2^32`, on every other hart it is unchanged; so for a counter below
`2^32 - 1` it does not decrease and grows by exactly one on hart 0. On every hart bit 1
of `sip` is cleared and the other 63 bits keep their values. -/
theorem devintr_timer_tick (E : Env) (w : World) (ht : w.h.scause = 0x8000000000000001)
    (hw : ∀ h, (E.wakeup h).ticks = h.ticks ∧ (E.wakeup h).sip = h.sip) :
    (devintr E w).1 = 2 ∧
    (devintr E w).2.h.ticks = (if cpuid w.h = 0 then (w.h.ticks + 1) % 2 ^ 32 else w.h.ticks) ∧
    (w.h.ticks < 2 ^ 32 - 1 →
      w.h.ticks ≤ (devintr E w).2.h.ticks ∧
      (cpuid w.h = 0 → (devintr E w).2.h.ticks = w.h.ticks + 1) ∧
      (cpuid w.h ≠ 0 → (devintr E w).2.h.ticks = w.h.ticks)) ∧
    (devintr E w).2.h.sip.testBit 1 = false ∧
    (∀ i, i < 64 → i ≠ 1 → (devintr E w).2.h.sip.testBit i = w.h.sip.testBit i) := by
  rw [devintr_timer_eq E w ht]
  have hticks : (devintrTimer E w).2.h.ticks =
      (if cpuid w.h = 0 then (w.h.ticks + 1) % 2 ^ 32 else w.h.ticks) := by
    unfold devintrTimer
    by_cases hc : cpuid w.h = 0
    · simp [hc, clockintr, World.call, World.w_sip, (hw _).1]
    · simp [hc, World.w_sip]
  have hsip : (devintrTimer E w).2.h.sip = w.h.sip &&& not64 2 := by
    unfold devintrTimer
    by_cases hc : cpuid w.h = 0
    · simp [hc, clockintr, World.call, World.w_sip, (hw _).2]
    · simp [hc, World.w_sip]
  refine ⟨rfl, hticks, ?_, ?_, ?_⟩
  · intro hlt
    rw [hticks]
    by_cases hc : cpuid w.h = 0
    · have hm : (w.h.ticks + 1) % 2 ^ 32 = w.h.ticks + 1 := Nat.mod_eq_of_lt (by omega)
      rw [if_pos hc, hm]
      exact ⟨Nat.le_succ _, fun _ => rfl, fun h => absurd hc h⟩
    · rw [if_neg hc]
      exact ⟨Nat.le_refl _, fun h => absurd h hc, fun _ => rfl⟩
  · rw [hsip, testBit_clear1 _ 1 (by decide)]
    simp
  · intro i hi hne
    rw [hsip, testBit_clear1 _ i hi]
    simp [hne]

/-- Witness of C11: a timer interrupt on hart 0 at tick 7. -/
theorem devintr_timer_tick_witness :
    ((sampleWorld 9223372036854775809).h.scause = 0x8000000000000001 ∧
      (∀ h, ((sampleEnv 0).wakeup h).ticks = h.ticks ∧ ((sampleEnv 0).wakeup h).sip = h.sip) ∧
      (sampleWorld 9223372036854775809).h.ticks < 2 ^ 32 - 1 ∧
      cpuid (sampleWorld 9223372036854775809).h = 0) ∧
    (devintr (sampleEnv 0) (sampleWorld 9223372036854775809)).2.h.ticks =
      (sampleWorld 9223372036854775809).h.ticks + 1 :=
  ⟨⟨rfl, fun _ => ⟨rfl, rfl⟩, by decide, rfl⟩,
    ((devintr_timer_tick (sampleEnv 0) (sampleWorld 9223372036854775809) rfl
      (fun _ => ⟨rfl, rfl⟩)).2.2.1 (by decide)).2.1 rfl⟩

/-- C11 as stated fails. On hart 0, with the tick counter at `2^32 - 1`, the counter is 0
after the timer interrupt: it decreased, and it is not the old value plus one. -/
theorem devintr_timer_tick_wraps :
    cpuid ({ sampleHart 9223372036854775809 with ticks := 4294967295 } : Hart) = 0 ∧
    (devintr (sampleEnv 0)
      { h := { sampleHart 9223372036854775809 with ticks := 4294967295 },
        trace := [] }).1 = 2 ∧
    (devintr (sampleEnv 0)
      { h := { sampleHart 9223372036854775809 with ticks := 4294967295 },
        trace := [] }).2.h.ticks = 0 ∧
    ¬ (4294967295 ≤ 0) := by
  exact ⟨rfl, by decide, by decide, by decide⟩

theorem spp_set_iff (x : Nat) : x &&& SSTATUS_SPP ≠ 0 ↔ x.testBit 8 = true := by
  have h : SSTATUS_SPP = 2 ^ 8 := by decide
  rw [h, and_two_pow_ne_zero]

theorem usertrapret_fst (E : Env) (w : World) :
    (usertrapret E w).1 = if w.h.curproc = false then Outcome.fault else Outcome.touser := by
  unfold usertrapret
  by_cases hc : w.h.curproc = false
  · simp [hc, World.emit, World.intr_off, World.w_stvec]
  · simp [hc, World.emit, World.intr_off, World.w_stvec]

theorem usertrapTail_fst (E : Env) (d : Int) (w : World) :
    (usertrapTail E d w).1 = Outcome.exited (-1) ∨ (usertrapTail E d w).1 = Outcome.fault ∨
      (usertrapTail E d w).1 = Outcome.touser := by
  unfold usertrapTail
  by_cases hk : w.h.p.killed ≠ 0
  · rw [if_pos hk]
    exact Or.inl rfl
  · rw [if_neg hk]
    simp only [usertrapret_fst]
    generalize (if d = 2 then w.call E.yield Event.yield else w) = w1
    by_cases hc : w1.h.curproc = false
    · rw [if_pos hc]
      exact Or.inr (Or.inl rfl)
    · rw [if_neg hc]
      exact Or.inr (Or.inr rfl)

theorem devintr_trace (E : Env) (w : World) :
    ∃ evs, (devintr E w).2.trace = w.trace ++ evs ∧ Event.yield ∉ evs ∧
      Event.usertrapret ∉ evs ∧ Event.syscall ∉ evs := by
  simp only [devintr]
  by_cases hx : w.h.scause &&& 0x8000000000000000 ≠ 0 ∧ w.h.scause &&& 0xff = 9
  · rw [if_pos hx]
    unfold devintrExternal
    by_cases h0 : (E.plic_claim w.h).1 = 0
    · by_cases hU : (0 : Int) = E.UART0_IRQ
      · exact ⟨[Event.plic_claim 0, Event.uartintr], by simp [h0, hU.symm, ← hU, World.call],
          by simp, by simp, by simp⟩
      · by_cases hV : (0 : Int) = E.VIRTIO0_IRQ
        · exact ⟨[Event.plic_claim 0, Event.virtio_disk_intr],
            by simp [h0, hU, ← hV, World.call], by simp, by simp, by simp⟩
        · exact ⟨[Event.plic_claim 0], by simp [h0, hU, hV], by simp, by simp, by simp⟩
    · by_cases hU : (E.plic_claim w.h).1 = E.UART0_IRQ
      · exact ⟨[Event.plic_claim (E.plic_claim w.h).1, Event.uartintr,
            Event.plic_complete (E.plic_claim w.h).1],
          by simp [h0, ← hU, World.call], by simp, by simp, by simp⟩
      · by_cases hV : (E.plic_claim w.h).1 = E.VIRTIO0_IRQ
        · exact ⟨[Event.plic_claim (E.plic_claim w.h).1, Event.virtio_disk_intr,
              Event.plic_complete (E.plic_claim w.h).1],
            by simp [h0, hU, ← hV, World.call], by simp, by simp, by simp⟩
        · exact ⟨[Event.plic_claim (E.plic_claim w.h).1,
              Event.printf "unexpected interrupt irq=%d\n" [(E.plic_claim w.h).1],
              Event.plic_complete (E.plic_claim w.h).1],
            by simp [h0, hU, hV, World.call, World.emit], by simp, by simp, by simp⟩
  · rw [if_neg hx]
    by_cases ht : w.h.scause = 0x8000000000000001
    · rw [if_pos ht]
      unfold devintrTimer
      by_cases hc : cpuid w.h = 0
      · exact ⟨[Event.ticksInc, Event.wakeup,
            Event.w_sip ((E.wakeup { w.h with ticks := (w.h.ticks + 1) % 2 ^ 32 }).sip &&&
              not64 2)],
          by simp [hc, clockintr, World.call, World.w_sip], by simp, by simp, by simp⟩
      · exact ⟨[Event.w_sip (w.h.sip &&& not64 2)], by simp [hc, World.w_sip], by simp,
          by simp, by simp⟩
    · rw [if_neg ht]
      exact ⟨[], by simp, by simp, by simp, by simp⟩

theorem devintr_zero_eq (E : Env) (w w1 : World) (h0 : (devintr E w).1 = 0)
    (hs : w1.h.scause = w.h.scause) : devintr E w1 = (0, w1) := by
  rw [devintr_fst] at h0
  unfold devintr
  simp only [scause_external_iff, hs]
  by_cases h1 : w.h.scause.testBit 63 = true ∧ w.h.scause % 256 = 9
  · rw [if_pos h1] at h0
    exact absurd h0 (by decide)
  · rw [if_neg h1] at h0 ⊢
    by_cases h2 : w.h.scause = 0x8000000000000001
    · rw [if_pos h2] at h0
      exact absurd h0 (by decide)
    · rw [if_neg h2]

theorem devintr_fst_congr (E : Env) (w w1 : World) (hs : w1.h.scause = w.h.scause) :
    (devintr E w1).1 = (devintr E w).1 := by
  rw [devintr_fst, devintr_fst, hs]

theorem usertrap_panic_eq (E : Env) (w : World) (hu : w.h.sstatus &&& SSTATUS_SPP ≠ 0) :
    usertrap E w = (Outcome.panicked "usertrap: not from user mode", w) := by
  unfold usertrap
  rw [if_pos hu]

theorem usertrap_noproc_eq (E : Env) (w : World) (hu : w.h.sstatus &&& SSTATUS_SPP = 0)
    (hp : w.h.curproc = false) : usertrap E w = (Outcome.fault, w.w_stvec E.kernelvec) := by
  unfold usertrap
  simp [hu, hp, World.w_stvec]

theorem usertrap_killed_eq (E : Env) (w : World) (hu : w.h.sstatus &&& SSTATUS_SPP = 0)
    (hp : w.h.curproc = true) (hs : w.h.scause = 8) (hk : w.h.p.killed ≠ 0) :
    usertrap E w = (Outcome.exited (-1), (usertrapSaved E w).emit (Event.exit (-1))) := by
  unfold usertrap usertrapSaved
  simp [hu, hp, hs, hk, World.w_stvec, World.tfStore, World.emit]

theorem usertrap_dev_eq (E : Env) (w : World) (hu : w.h.sstatus &&& SSTATUS_SPP = 0)
    (hp : w.h.curproc = true) (hs : w.h.scause ≠ 8) :
    usertrap E w =
      if (devintr E (usertrapSaved E w)).1 ≠ 0 then
        usertrapTail E (devintr E (usertrapSaved E w)).1 (devintr E (usertrapSaved E w)).2
      else
        usertrapTail E (devintr E (usertrapSaved E w)).1
          (usertrapReported (devintr E (usertrapSaved E w)).2) := by
  have hp1 : ¬ (w.w_stvec E.kernelvec).h.curproc = false := by
    simp [World.w_stvec, hp]
  have hs1 : ¬ ((w.w_stvec E.kernelvec).tfStore TfField.epc
      (w.w_stvec E.kernelvec).h.sepc).h.scause = 8 := hs
  unfold usertrap
  rw [if_neg (not_not.mpr hu)]
  simp only []
  rw [if_neg hp1, if_neg hs1]
  rfl

theorem usertrapSaved_trace (E : Env) (w : World) :
    (usertrapSaved E w).trace =
      w.trace ++ [Event.w_stvec E.kernelvec, Event.tfStore TfField.epc w.h.sepc] := by
  simp [usertrapSaved, World.w_stvec, World.tfStore]

theorem usertrapSaved_scause (E : Env) (w : World) :
    (usertrapSaved E w).h.scause = w.h.scause := rfl

theorem usertrapReported_trace (w : World) :
    (usertrapReported w).trace = w.trace ++
      [Event.printf "usertrap(): unexpected scause %p pid=%d\n" [(w.h.scause : Int), w.h.p.pid],
       Event.printf "            sepc=%p stval=%p\n" [(w.h.sepc : Int), (w.h.stval : Int)],
       Event.setKilled 1] := by
  simp [usertrapReported, World.emit, World.setKilled]

theorem usertrap_cases (E : Env) (w : World) (hu : w.h.sstatus &&& SSTATUS_SPP = 0) :
    (∃ pre, (usertrap E w).2.trace = w.trace ++ Event.w_stvec E.kernelvec :: pre ∧
        Event.yield ∉ pre ∧ Event.usertrapret ∉ pre ∧
        (w.h.curproc = true → ∃ pre2, pre = Event.tfStore TfField.epc w.h.sepc :: pre2) ∧
        ∀ msg, (usertrap E w).1 ≠ Outcome.panicked msg) ∨
    (∃ pre d w1, usertrap E w = usertrapTail E d w1 ∧
        w1.trace = w.trace ++ Event.w_stvec E.kernelvec :: pre ∧
        Event.yield ∉ pre ∧ Event.usertrapret ∉ pre ∧
        (w.h.curproc = true → ∃ pre2, pre = Event.tfStore TfField.epc w.h.sepc :: pre2) ∧
        (d = 2 ↔ (w.h.scause ≠ 8 ∧ (devintr E w).1 = 2))) := by
  by_cases hp : w.h.curproc = true
  · by_cases hs : w.h.scause = 8
    · by_cases hk : w.h.p.killed ≠ 0
      · left
        rw [usertrap_killed_eq E w hu hp hs hk]
        refine ⟨[Event.tfStore TfField.epc w.h.sepc, Event.exit (-1)], ?_, by simp, by simp,
          fun _ => ⟨_, rfl⟩, fun msg h => by cases h⟩
        simp [World.emit, usertrapSaved_trace]
      · have key := usertrap_syscall_eq E w hu hp hs (not_not.mp hk)
        cases hsys : E.syscall { w.h with
            stvec := E.kernelvec
            sstatus := w.h.sstatus ||| SSTATUS_SIE
            p := { w.h.p with trapframe := { w.h.p.trapframe with epc := add64 w.h.sepc 4 } } } with
        | none =>
          rw [hsys] at key
          left
          rw [key]
          exact ⟨[Event.tfStore TfField.epc w.h.sepc,
            Event.tfStore TfField.epc (add64 w.h.sepc 4), Event.intr_on, Event.syscall], rfl,
            by simp, by simp, fun _ => ⟨_, rfl⟩, fun msg h => by cases h⟩
        | some h1 =>
          rw [hsys] at key
          right
          exact ⟨[Event.tfStore TfField.epc w.h.sepc,
            Event.tfStore TfField.epc (add64 w.h.sepc 4), Event.intr_on, Event.syscall], 0, _,
            key, rfl, by simp, by simp, fun _ => ⟨_, rfl⟩,
            ⟨fun h => absurd h (by decide), fun h => absurd hs h.1⟩⟩
    · right
      obtain ⟨evs, he, hy, hr, _⟩ := devintr_trace E (usertrapSaved E w)
      have hfst : (devintr E (usertrapSaved E w)).1 = (devintr E w).1 :=
        devintr_fst_congr E w (usertrapSaved E w) rfl
      rw [usertrap_dev_eq E w hu hp hs]
      by_cases hd : (devintr E (usertrapSaved E w)).1 ≠ 0
      · rw [if_pos hd]
        refine ⟨Event.tfStore TfField.epc w.h.sepc :: evs, _, _, rfl, ?_, by simp [hy],
          by simp [hr], fun _ => ⟨_, rfl⟩, ?_⟩
        · rw [he, usertrapSaved_trace]
          simp
        · rw [hfst]
          exact ⟨fun h => ⟨hs, h⟩, fun h => h.2⟩
      · rw [if_neg hd]
        refine ⟨Event.tfStore TfField.epc w.h.sepc :: (evs ++
            [Event.printf "usertrap(): unexpected scause %p pid=%d\n"
              [((devintr E (usertrapSaved E w)).2.h.scause : Int),
                (devintr E (usertrapSaved E w)).2.h.p.pid],
             Event.printf "            sepc=%p stval=%p\n"
              [((devintr E (usertrapSaved E w)).2.h.sepc : Int),
                ((devintr E (usertrapSaved E w)).2.h.stval : Int)],
             Event.setKilled 1]), _, _, rfl, ?_, by simp [hy], by simp [hr],
          fun _ => ⟨_, rfl⟩, ?_⟩
        · rw [usertrapReported_trace, he, usertrapSaved_trace]
          simp
        · have h0 : (devintr E w).1 = 0 := by
            rw [← hfst]
            exact not_not.mp hd
          rw [hfst, h0]
          exact ⟨fun h => absurd h (by decide), fun h => absurd h.2 (by decide)⟩
  · left
    have hp0 : w.h.curproc = false := by
      cases hc : w.h.curproc
      · rfl
      · exact absurd hc hp
    rw [usertrap_noproc_eq E w hu hp0]
    exact ⟨[], rfl, by simp, by simp, fun h => absurd h hp, fun msg h => by cases h⟩

theorem spp_clear_iff (x : Nat) : x &&& SSTATUS_SPP = 0 ↔ x.testBit 8 = false := by
  rw [← not_iff_not, ← ne_eq, spp_set_iff]
  simp

theorem kerneltrap_user_eq (E : Env) (w : World) (h1 : w.h.sstatus &&& SSTATUS_SPP = 0) :
    kerneltrap E w = (Outcome.panicked "kerneltrap: not from supervisor mode", w) := by
  unfold kerneltrap
  simp only []
  rw [if_pos h1]

theorem kerneltrap_intr_eq (E : Env) (w : World) (h1 : w.h.sstatus &&& SSTATUS_SPP ≠ 0)
    (h2 : intr_get w.h = true) :
    kerneltrap E w = (Outcome.panicked "kerneltrap: interrupts enabled", w) := by
  unfold kerneltrap
  simp only []
  rw [if_neg h1, if_pos h2]

theorem kerneltrap_unknown_eq (E : Env) (w : World) (h1 : w.h.sstatus &&& SSTATUS_SPP ≠ 0)
    (h2 : intr_get w.h = false) (h3 : (devintr E w).1 = 0) :
    kerneltrap E w = (Outcome.panicked "kerneltrap",
      (w.emit (Event.printf "scause %p\n" [(w.h.scause : Int)])).emit
        (Event.printf "sepc=%p stval=%p\n" [(w.h.sepc : Int), (w.h.stval : Int)])) := by
  have h2n : ¬ intr_get w.h = true := by simp [h2]
  have hd := devintr_zero_eq E w w h3 rfl
  unfold kerneltrap
  simp only []
  rw [if_neg h1, if_neg h2n, if_pos h3, hd]
  rfl

theorem kerneltrap_run_eq (E : Env) (w : World) (h1 : w.h.sstatus &&& SSTATUS_SPP ≠ 0)
    (h2 : intr_get w.h = false) (h3 : (devintr E w).1 ≠ 0) :
    kerneltrap E w = (Outcome.returned,
      ((if (devintr E w).1 = 2 ∧ (devintr E w).2.h.curproc = true ∧
            (devintr E w).2.h.p.state = procstate.RUNNING then
          (devintr E w).2.call E.yield Event.yield
        else (devintr E w).2).w_sepc w.h.sepc).w_sstatus w.h.sstatus) := by
  have h2n : ¬ intr_get w.h = true := by simp [h2]
  unfold kerneltrap
  simp only []
  rw [if_neg h1, if_neg h2n, if_neg h3]

/-- C12 (user-entry precondition). `usertrap` panics exactly when bit 8 of `sstatus`
(`SSTATUS_SPP`) is set at entry, with the message "usertrap: not from user mode" and the
world as at entry: `stvec` and the trap frame unwritten, nothing called. When the bit is
clear, its first action is the store of `kernelvec` to `stvec`, and with a current
process the next is the save of the user pc in the trap frame. -/
theorem usertrap_entry_check (E : Env) (w : World) :
    ((∃ msg, (usertrap E w).1 = Outcome.panicked msg) ↔ w.h.sstatus.testBit 8 = true) ∧
    (w.h.sstatus.testBit 8 = true →
      usertrap E w = (Outcome.panicked "usertrap: not from user mode", w)) ∧
    (w.h.sstatus.testBit 8 = false →
      ∃ rest, (usertrap E w).2.trace = w.trace ++ Event.w_stvec E.kernelvec :: rest ∧
        (w.h.curproc = true → ∃ rest2, rest = Event.tfStore TfField.epc w.h.sepc :: rest2)) := by
  have hclear : w.h.sstatus.testBit 8 = false →
      (∀ msg, (usertrap E w).1 ≠ Outcome.panicked msg) ∧
      ∃ rest, (usertrap E w).2.trace = w.trace ++ Event.w_stvec E.kernelvec :: rest ∧
        (w.h.curproc = true → ∃ rest2, rest = Event.tfStore TfField.epc w.h.sepc :: rest2) := by
    intro hb
    have hu := (spp_clear_iff _).mpr hb
    rcases usertrap_cases E w hu with ⟨pre, h1, _, _, h4, h5⟩ | ⟨pre, d, w1, h1, h2, _, _, h5, _⟩
    · exact ⟨h5, pre, h1, h4⟩
    · obtain ⟨rest, hr, _⟩ := usertrapTail_trace E d w1
      refine ⟨?_, pre ++ rest, ?_, ?_⟩
      · intro msg h
        rw [h1] at h
        rcases usertrapTail_fst E d w1 with h6 | h6 | h6 <;> rw [h6] at h <;> cases h
      · rw [h1, hr, h2]
        simp
      · intro hp
        obtain ⟨pre2, hp2⟩ := h5 hp
        exact ⟨pre2 ++ rest, by rw [hp2]; rfl⟩
  have hset : w.h.sstatus.testBit 8 = true →
      usertrap E w = (Outcome.panicked "usertrap: not from user mode", w) :=
    fun hb => usertrap_panic_eq E w ((spp_set_iff _).mpr hb)
  refine ⟨⟨?_, fun hb => ⟨_, by rw [hset hb]⟩⟩, hset, fun hb => (hclear hb).2⟩
  rintro ⟨msg, h⟩
  by_contra hb
  exact (hclear (by simpa using hb)).1 msg h

/-- Witness of C12: a trap taken in supervisor mode (`sstatus` = 256). -/
theorem usertrap_entry_check_witness :
    ({ sampleHart 8 with sstatus := 256 } : Hart).sstatus.testBit 8 = true ∧
    usertrap (sampleEnv 0) { h := { sampleHart 8 with sstatus := 256 }, trace := [] } =
      (Outcome.panicked "usertrap: not from user mode",
        { h := { sampleHart 8 with sstatus := 256 }, trace := [] }) :=
  ⟨by decide, (usertrap_entry_check (sampleEnv 0)
    { h := { sampleHart 8 with sstatus := 256 }, trace := [] }).2.1 (by decide)⟩

/-- C13 (kernel-trap fatality). `kerneltrap` panics exactly when, at entry, bit 8 of
`sstatus` (`SSTATUS_SPP`) is clear, or interrupts are enabled, or `devintr` returns 0 for
the cause. In the first two cases the world at the halt is the world at entry, so
`devintr` has not run; in every other case `kerneltrap` returns. -/
theorem kerneltrap_panic_iff (E : Env) (w : World) :
    ((∃ msg, (kerneltrap E w).1 = Outcome.panicked msg) ↔
      (w.h.sstatus.testBit 8 = false ∨ intr_get w.h = true ∨ (devintr E w).1 = 0)) ∧
    (w.h.sstatus.testBit 8 = false →
      kerneltrap E w = (Outcome.panicked "kerneltrap: not from supervisor mode", w)) ∧
    (w.h.sstatus.testBit 8 = true → intr_get w.h = true →
      kerneltrap E w = (Outcome.panicked "kerneltrap: interrupts enabled", w)) ∧
    (w.h.sstatus.testBit 8 = true → intr_get w.h = false → (devintr E w).1 = 0 →
      (kerneltrap E w).1 = Outcome.panicked "kerneltrap") ∧
    (¬ (w.h.sstatus.testBit 8 = false ∨ intr_get w.h = true ∨ (devintr E w).1 = 0) →
      (kerneltrap E w).1 = Outcome.returned) := by
  have hA : w.h.sstatus.testBit 8 = false →
      kerneltrap E w = (Outcome.panicked "kerneltrap: not from supervisor mode", w) :=
    fun hb => kerneltrap_user_eq E w ((spp_clear_iff _).mpr hb)
  have hB : w.h.sstatus.testBit 8 = true → intr_get w.h = true →
      kerneltrap E w = (Outcome.panicked "kerneltrap: interrupts enabled", w) :=
    fun hb hi => kerneltrap_intr_eq E w ((spp_set_iff _).mpr hb) hi
  have hC : w.h.sstatus.testBit 8 = true → intr_get w.h = false → (devintr E w).1 = 0 →
      (kerneltrap E w).1 = Outcome.panicked "kerneltrap" := by
    intro hb hi hd
    rw [kerneltrap_unknown_eq E w ((spp_set_iff _).mpr hb) hi hd]
  have hD : ¬ (w.h.sstatus.testBit 8 = false ∨ intr_get w.h = true ∨ (devintr E w).1 = 0) →
      (kerneltrap E w).1 = Outcome.returned := by
    intro hn
    have hb : w.h.sstatus.testBit 8 = true := by
      cases h : w.h.sstatus.testBit 8
      · exact absurd (Or.inl h) hn
      · rfl
    have hi : intr_get w.h = false := by
      cases h : intr_get w.h
      · rfl
      · exact absurd (Or.inr (Or.inl h)) hn
    have hd : (devintr E w).1 ≠ 0 := fun h => hn (Or.inr (Or.inr h))
    rw [kerneltrap_run_eq E w ((spp_set_iff _).mpr hb) hi hd]
  refine ⟨⟨?_, ?_⟩, hA, hB, hC, hD⟩
  · rintro ⟨msg, h⟩
    by_contra hn
    rw [hD hn] at h
    cases h
  · intro h
    by_cases hb : w.h.sstatus.testBit 8 = false
    · exact ⟨_, by rw [hA hb]⟩
    · have hb1 : w.h.sstatus.testBit 8 = true := by simpa using hb
      by_cases hi : intr_get w.h = true
      · exact ⟨_, by rw [hB hb1 hi]⟩
      · have hi1 : intr_get w.h = false := by simpa using hi
        rcases h with h | h | h
        · exact absurd h hb
        · exact absurd h hi
        · exact ⟨_, hC hb1 hi1 h⟩

/-- Witness of C13: a trap from supervisor mode with interrupts off and a cause that
`devintr` does not recognise. -/
theorem kerneltrap_panic_iff_witness :
    (({ sampleHart 13 with sstatus := 256 } : Hart).sstatus.testBit 8 = true ∧
      intr_get { sampleHart 13 with sstatus := 256 } = false ∧
      (devintr (sampleEnv 0) { h := { sampleHart 13 with sstatus := 256 }, trace := [] }).1 = 0) ∧
    (kerneltrap (sampleEnv 0) { h := { sampleHart 13 with sstatus := 256 }, trace := [] }).1 =
      Outcome.panicked "kerneltrap" :=
  ⟨⟨by decide, by decide, by decide⟩,
    (kerneltrap_panic_iff (sampleEnv 0)
      { h := { sampleHart 13 with sstatus := 256 }, trace := [] }).2.2.2.1
      (by decide) (by decide) (by decide)⟩

/-- C14 (process-local fault). When `usertrap` is entered from user mode with a cause
other than 8 that `devintr` does not recognise (it returns 0), its actions are: set
`stvec`, save the user pc, print the two report lines, set `p->killed = 1`, and end in
`exit(-1)`. It does not panic, call `syscall`, yield or reach `usertrapret`. -/
theorem usertrap_unexpected_cause (E : Env) (w : World)
    (hu : w.h.sstatus &&& SSTATUS_SPP = 0) (hp : w.h.curproc = true) (hs : w.h.scause ≠ 8)
    (hd : (devintr E w).1 = 0) :
    (usertrap E w).1 = Outcome.exited (-1) ∧
    (usertrap E w).2.h.p.killed = 1 ∧
    (usertrap E w).2.trace = w.trace ++ [Event.w_stvec E.kernelvec,
      Event.tfStore TfField.epc w.h.sepc,
      Event.printf "usertrap(): unexpected scause %p pid=%d\n" [(w.h.scause : Int), w.h.p.pid],
      Event.printf "            sepc=%p stval=%p\n" [(w.h.sepc : Int), (w.h.stval : Int)],
      Event.setKilled 1, Event.exit (-1)] ∧
    (∀ e, e ∈ (usertrap E w).2.trace.drop w.trace.length →
      e ≠ Event.syscall ∧ e ≠ Event.yield ∧ e ≠ Event.usertrapret) := by
  have hz := devintr_zero_eq E w (usertrapSaved E w) hd rfl
  have heq : usertrap E w = (Outcome.exited (-1),
      (usertrapReported (usertrapSaved E w)).emit (Event.exit (-1))) := by
    rw [usertrap_dev_eq E w hu hp hs, hz]
    simp [usertrapTail, usertrapReported, World.setKilled, World.emit]
  have htr : (usertrap E w).2.trace = w.trace ++ [Event.w_stvec E.kernelvec,
      Event.tfStore TfField.epc w.h.sepc,
      Event.printf "usertrap(): unexpected scause %p pid=%d\n" [(w.h.scause : Int), w.h.p.pid],
      Event.printf "            sepc=%p stval=%p\n" [(w.h.sepc : Int), (w.h.stval : Int)],
      Event.setKilled 1, Event.exit (-1)] := by
    rw [heq]
    simp [World.emit, usertrapReported_trace, usertrapSaved_trace]
    exact ⟨⟨rfl, rfl⟩, rfl, rfl⟩
  refine ⟨by rw [heq], ?_, htr, ?_⟩
  · rw [heq]
    rfl
  · intro e he
    rw [htr, List.drop_left] at he
    simp only [List.mem_cons, List.mem_singleton, List.not_mem_nil, or_false] at he
    rcases he with rfl | rfl | rfl | rfl | rfl | rfl <;> simp

/-- Witness of C14: a load page fault (cause 13) in the sample process. -/
theorem usertrap_unexpected_cause_witness :
    ((sampleWorld 13).h.sstatus &&& SSTATUS_SPP = 0 ∧ (sampleWorld 13).h.curproc = true ∧
      (sampleWorld 13).h.scause ≠ 8 ∧ (devintr (sampleEnv 0) (sampleWorld 13)).1 = 0) ∧
    ((usertrap (sampleEnv 0) (sampleWorld 13)).1 = Outcome.exited (-1) ∧
    (usertrap (sampleEnv 0) (sampleWorld 13)).2.h.p.killed = 1 ∧
    (usertrap (sampleEnv 0) (sampleWorld 13)).2.trace =
      (sampleWorld 13).trace ++ [Event.w_stvec (sampleEnv 0).kernelvec,
        Event.tfStore TfField.epc (sampleWorld 13).h.sepc,
        Event.printf "usertrap(): unexpected scause %p pid=%d\n"
          [((sampleWorld 13).h.scause : Int), (sampleWorld 13).h.p.pid],
        Event.printf "            sepc=%p stval=%p\n"
          [((sampleWorld 13).h.sepc : Int), ((sampleWorld 13).h.stval : Int)],
        Event.setKilled 1, Event.exit (-1)] ∧
    (∀ e, e ∈ (usertrap (sampleEnv 0) (sampleWorld 13)).2.trace.drop
        (sampleWorld 13).trace.length →
      e ≠ Event.syscall ∧ e ≠ Event.yield ∧ e ≠ Event.usertrapret)) :=
  ⟨⟨by decide, rfl, by decide, by decide⟩,
    usertrap_unexpected_cause (sampleEnv 0) (sampleWorld 13) (by decide) rfl (by decide)
      (by decide)⟩

/-- C16 (kernel-trap register restore). Whenever `kerneltrap` does not panic it returns,
and whatever `devintr`, the device handlers and `yield` did to `sepc` and `sstatus`, its
last two actions write back the values read at entry: on return both registers hold
their entry values. -/
theorem kerneltrap_restores_registers (E : Env) (w : World)
    (hnp : ∀ msg, (kerneltrap E w).1 ≠ Outcome.panicked msg) :
    (kerneltrap E w).1 = Outcome.returned ∧
    (kerneltrap E w).2.h.sepc = w.h.sepc ∧
    (kerneltrap E w).2.h.sstatus = w.h.sstatus ∧
    ∃ pre, (kerneltrap E w).2.trace =
      w.trace ++ pre ++ [Event.w_sepc w.h.sepc, Event.w_sstatus w.h.sstatus] := by
  have h1 : w.h.sstatus &&& SSTATUS_SPP ≠ 0 := by
    intro h
    exact hnp _ (by rw [kerneltrap_user_eq E w h])
  have h2 : intr_get w.h = false := by
    cases h : intr_get w.h
    · rfl
    · exact absurd (by rw [kerneltrap_intr_eq E w h1 h]) (hnp "kerneltrap: interrupts enabled")
  have h3 : (devintr E w).1 ≠ 0 := by
    intro h
    exact hnp "kerneltrap" (by rw [kerneltrap_unknown_eq E w h1 h2 h])
  obtain ⟨evs, he, _⟩ := devintr_trace E w
  rw [kerneltrap_run_eq E w h1 h2 h3]
  refine ⟨rfl, rfl, rfl, ?_⟩
  by_cases hy : (devintr E w).1 = 2 ∧ (devintr E w).2.h.curproc = true ∧
      (devintr E w).2.h.p.state = procstate.RUNNING
  · refine ⟨evs ++ [Event.yield], ?_⟩
    rw [if_pos hy]
    simp [World.w_sstatus, World.w_sepc, World.call, he]
  · refine ⟨evs, ?_⟩
    rw [if_neg hy]
    simp [World.w_sstatus, World.w_sepc, he]

/-- Witness of C16: a timer interrupt taken in supervisor mode with interrupts off. -/
theorem kerneltrap_restores_registers_witness :
    (∀ msg, (kerneltrap (sampleEnv 0) (sampleKernelWorld 9223372036854775809)).1 ≠
        Outcome.panicked msg) ∧
    ((kerneltrap (sampleEnv 0) (sampleKernelWorld 9223372036854775809)).1 = Outcome.returned ∧
    (kerneltrap (sampleEnv 0) (sampleKernelWorld 9223372036854775809)).2.h.sepc =
      (sampleKernelWorld 9223372036854775809).h.sepc ∧
    (kerneltrap (sampleEnv 0) (sampleKernelWorld 9223372036854775809)).2.h.sstatus =
      (sampleKernelWorld 9223372036854775809).h.sstatus ∧
    ∃ pre, (kerneltrap (sampleEnv 0) (sampleKernelWorld 9223372036854775809)).2.trace =
      (sampleKernelWorld 9223372036854775809).trace ++ pre ++
        [Event.w_sepc (sampleKernelWorld 9223372036854775809).h.sepc,
          Event.w_sstatus (sampleKernelWorld 9223372036854775809).h.sstatus]) := by
  have hr : (kerneltrap (sampleEnv 0) (sampleKernelWorld 9223372036854775809)).1 =
      Outcome.returned := by decide
  have hnp : ∀ msg, (kerneltrap (sampleEnv 0) (sampleKernelWorld 9223372036854775809)).1 ≠
      Outcome.panicked msg := by
    intro msg hm
    rw [hr] at hm
    cases hm
  exact ⟨hnp, kerneltrap_restores_registers (sampleEnv 0)
    (sampleKernelWorld 9223372036854775809) hnp⟩

/-! ## The return path -/

theorem usertrapret_touser_eq (E : Env) (w : World) (hp : w.h.curproc = true) :
    usertrapret E w = (Outcome.touser,
      { h := { w.h with
          sstatus := w.h.sstatus &&& not64 SSTATUS_SIE &&& not64 SSTATUS_SPP ||| SSTATUS_SPIE
          stvec := add64 E.TRAMPOLINE (sub64 E.uservec E.trampoline)
          sepc := w.h.p.trapframe.epc
          p := { w.h.p with trapframe := { w.h.p.trapframe with
            kernel_satp := w.h.satp
            kernel_sp := add64 w.h.p.kstack PGSIZE
            kernel_trap := E.usertrapAddr
            kernel_hartid := w.h.tp } } },
        trace := w.trace ++ [Event.usertrapret, Event.intr_off,
          Event.w_stvec (add64 E.TRAMPOLINE (sub64 E.uservec E.trampoline)),
          Event.tfStore TfField.kernel_satp w.h.satp,
          Event.tfStore TfField.kernel_sp (add64 w.h.p.kstack PGSIZE),
          Event.tfStore TfField.kernel_trap E.usertrapAddr,
          Event.tfStore TfField.kernel_hartid w.h.tp,
          Event.w_sstatus
            (w.h.sstatus &&& not64 SSTATUS_SIE &&& not64 SSTATUS_SPP ||| SSTATUS_SPIE),
          Event.w_sepc w.h.p.trapframe.epc,
          Event.userret (add64 E.TRAMPOLINE (sub64 E.userret E.trampoline)) E.TRAPFRAME
            (E.MAKE_SATP w.h.p.pagetable)] }) := by
  unfold usertrapret
  simp [hp, World.emit, World.intr_off, World.w_stvec, World.tfStore, World.w_sstatus,
    World.w_sepc, trapframe.set]

theorem sstatus_return_bits (s i : Nat) (hi : i < 64) :
    (s &&& not64 SSTATUS_SIE &&& not64 SSTATUS_SPP ||| SSTATUS_SPIE).testBit i =
      ((s.testBit i && decide (i ≠ 1) && decide (i ≠ 8)) || decide (i = 5)) := by
  have h5 : SSTATUS_SPIE = 2 ^ 5 := by decide
  have h1 : SSTATUS_SIE = 2 := by decide
  have h8 : SSTATUS_SPP = 256 := by decide
  rw [Nat.testBit_or, h8, testBit_clear8 _ i hi, h1, testBit_clear1 _ i hi, h5,
    Nat.testBit_two_pow]
  by_cases h : i = 5
  · subst h
    simp
  · have h' : ¬ (5 = i) := fun e => h e.symm
    simp [h, h']

theorem add64_sub64 (a b c : Nat) (hbc : c ≤ b) (hs : a + (b - c) < W64) :
    add64 a (sub64 b c) = a + (b - c) := by
  unfold add64 sub64
  unfold W64 at *
  omega

/-- C15 (return-path register state). With a current process, `usertrapret` ends in the
jump to the trampoline. The actions before the jump are, in order: interrupts off,
`stvec`, the four trap-frame stores, one write of `sstatus`, one of `sepc`. At the jump
`sstatus` has bit 8 (SPP) clear, bit 5 (SPIE) set, bit 1 (SIE) clear and every other of
its 64 bits as at entry; `sepc` is the trap frame's `epc`; `stvec` is
`TRAMPOLINE + (uservec - trampoline)` in 64-bit arithmetic; and the routine at
`TRAMPOLINE + (userret - trampoline)` gets `(TRAPFRAME, MAKE_SATP(p->pagetable))`. -/
theorem usertrapret_register_state (E : Env) (w : World) (hp : w.h.curproc = true) :
    (usertrapret E w).1 = Outcome.touser ∧
    (usertrapret E w).2.h.sstatus.testBit 8 = false ∧
    (usertrapret E w).2.h.sstatus.testBit 5 = true ∧
    (usertrapret E w).2.h.sstatus.testBit 1 = false ∧
    (∀ i, i < 64 → i ≠ 8 → i ≠ 5 → i ≠ 1 →
      (usertrapret E w).2.h.sstatus.testBit i = w.h.sstatus.testBit i) ∧
    (usertrapret E w).2.h.sepc = (usertrapret E w).2.h.p.trapframe.epc ∧
    (usertrapret E w).2.h.sepc = w.h.p.trapframe.epc ∧
    (usertrapret E w).2.h.stvec = add64 E.TRAMPOLINE (sub64 E.uservec E.trampoline) ∧
    (E.trampoline ≤ E.uservec → E.TRAMPOLINE + (E.uservec - E.trampoline) < W64 →
      (usertrapret E w).2.h.stvec = E.TRAMPOLINE + (E.uservec - E.trampoline)) ∧
    (usertrapret E w).2.trace = w.trace ++ [Event.usertrapret, Event.intr_off,
      Event.w_stvec (add64 E.TRAMPOLINE (sub64 E.uservec E.trampoline)),
      Event.tfStore TfField.kernel_satp w.h.satp,
      Event.tfStore TfField.kernel_sp (add64 w.h.p.kstack PGSIZE),
      Event.tfStore TfField.kernel_trap E.usertrapAddr,
      Event.tfStore TfField.kernel_hartid w.h.tp,
      Event.w_sstatus (usertrapret E w).2.h.sstatus,
      Event.w_sepc w.h.p.trapframe.epc,
      Event.userret (add64 E.TRAMPOLINE (sub64 E.userret E.trampoline)) E.TRAPFRAME
        (E.MAKE_SATP w.h.p.pagetable)] ∧
    (w.h.sstatus &&& not64 SSTATUS_SIE).testBit 1 = false := by
  rw [usertrapret_touser_eq E w hp]
  refine ⟨rfl, ?_, ?_, ?_, ?_, rfl, rfl, rfl, ?_, rfl, ?_⟩
  · show (w.h.sstatus &&& not64 SSTATUS_SIE &&& not64 SSTATUS_SPP ||| SSTATUS_SPIE).testBit 8
      = false
    rw [sstatus_return_bits _ 8 (by decide)]
    simp
  · show (w.h.sstatus &&& not64 SSTATUS_SIE &&& not64 SSTATUS_SPP ||| SSTATUS_SPIE).testBit 5
      = true
    rw [sstatus_return_bits _ 5 (by decide)]
    simp
  · show (w.h.sstatus &&& not64 SSTATUS_SIE &&& not64 SSTATUS_SPP ||| SSTATUS_SPIE).testBit 1
      = false
    rw [sstatus_return_bits _ 1 (by decide)]
    simp
  · intro i hi h8 h5 h1
    show (w.h.sstatus &&& not64 SSTATUS_SIE &&& not64 SSTATUS_SPP ||| SSTATUS_SPIE).testBit i
      = w.h.sstatus.testBit i
    rw [sstatus_return_bits _ i hi]
    simp [h8, h5, h1]
  · intro h1 h2
    exact add64_sub64 _ _ _ h1 h2
  · have h1 : SSTATUS_SIE = 2 := by decide
    rw [h1, testBit_clear1 _ 1 (by decide)]
    simp

/-- Witness of C15: the sample process returning to user space. -/
theorem usertrapret_register_state_witness :
    (sampleWorld 8).h.curproc = true ∧
    ((usertrapret (sampleEnv 0) (sampleWorld 8)).1 = Outcome.touser ∧
      (usertrapret (sampleEnv 0) (sampleWorld 8)).2.h.sstatus.testBit 8 = false ∧
      (usertrapret (sampleEnv 0) (sampleWorld 8)).2.h.sstatus.testBit 5 = true ∧
      (usertrapret (sampleEnv 0) (sampleWorld 8)).2.h.sstatus.testBit 1 = false) :=
  ⟨rfl,
    (usertrapret_register_state (sampleEnv 0) (sampleWorld 8) rfl).1,
    (usertrapret_register_state (sampleEnv 0) (sampleWorld 8) rfl).2.1,
    (usertrapret_register_state (sampleEnv 0) (sampleWorld 8) rfl).2.2.1,
    (usertrapret_register_state (sampleEnv 0) (sampleWorld 8) rfl).2.2.2.1⟩

/-- C18 (trap-frame effect of the return path). With a current process, `usertrapret`
stores to exactly four trap-frame fields: `kernel_satp` gets `satp`, `kernel_sp` gets
`p->kstack + 4096` (64-bit sum), `kernel_trap` gets the address of `usertrap`,
`kernel_hartid` gets `tp`. The saved `epc` and user registers are unchanged, and so are
the process's killed flag, pid, page table, state and kernel-stack address. -/
theorem usertrapret_trapframe_effect (E : Env) (w : World) (hp : w.h.curproc = true) :
    (usertrapret E w).2.h.p.trapframe = { w.h.p.trapframe with
      kernel_satp := w.h.satp
      kernel_sp := add64 w.h.p.kstack 4096
      kernel_trap := E.usertrapAddr
      kernel_hartid := w.h.tp } ∧
    (w.h.p.kstack + 4096 < W64 →
      (usertrapret E w).2.h.p.trapframe.kernel_sp = w.h.p.kstack + 4096) ∧
    (usertrapret E w).2.h.p.trapframe.epc = w.h.p.trapframe.epc ∧
    (usertrapret E w).2.h.p.trapframe.uregs = w.h.p.trapframe.uregs ∧
    (usertrapret E w).2.h.p.killed = w.h.p.killed ∧
    (usertrapret E w).2.h.p.pid = w.h.p.pid ∧
    (usertrapret E w).2.h.p.pagetable = w.h.p.pagetable ∧
    (usertrapret E w).2.h.p.state = w.h.p.state ∧
    (usertrapret E w).2.h.p.kstack = w.h.p.kstack ∧
    (∀ f v, Event.tfStore f v ∈ (usertrapret E w).2.trace.drop w.trace.length ↔
      ((f = TfField.kernel_satp ∧ v = w.h.satp) ∨
       (f = TfField.kernel_sp ∧ v = add64 w.h.p.kstack 4096) ∨
       (f = TfField.kernel_trap ∧ v = E.usertrapAddr) ∨
       (f = TfField.kernel_hartid ∧ v = w.h.tp))) := by
  rw [usertrapret_touser_eq E w hp]
  refine ⟨rfl, ?_, rfl, rfl, rfl, rfl, rfl, rfl, rfl, ?_⟩
  · intro h
    exact Nat.mod_eq_of_lt h
  · intro f v
    rw [List.drop_left]
    simp [PGSIZE]

/-- Witness of C18: the sample process returning to user space. -/
theorem usertrapret_trapframe_effect_witness :
    (sampleWorld 8).h.curproc = true ∧
    (usertrapret (sampleEnv 0) (sampleWorld 8)).2.h.p.trapframe =
      { (sampleWorld 8).h.p.trapframe with
        kernel_satp := (sampleWorld 8).h.satp
        kernel_sp := add64 (sampleWorld 8).h.p.kstack 4096
        kernel_trap := (sampleEnv 0).usertrapAddr
        kernel_hartid := (sampleWorld 8).h.tp } :=
  ⟨rfl, (usertrapret_trapframe_effect (sampleEnv 0) (sampleWorld 8) rfl).1⟩

/-! ## Yielding on a timer interrupt -/

theorem usertrapret_trace_head (E : Env) (w : World) :
    ∃ r2, (usertrapret E w).2.trace = w.trace ++ Event.usertrapret :: r2 ∧
      Event.yield ∉ r2 ∧ Event.usertrapret ∉ r2 := by
  by_cases hp : w.h.curproc = true
  · rw [usertrapret_touser_eq E w hp]
    exact ⟨_, rfl, by simp, by simp⟩
  · have hp0 : w.h.curproc = false := by simpa using hp
    refine ⟨[Event.intr_off, Event.w_stvec (add64 E.TRAMPOLINE (sub64 E.uservec E.trampoline))],
      ?_, by simp, by simp⟩
    unfold usertrapret
    simp [hp0, World.emit, World.intr_off, World.w_stvec]

theorem usertrapTail_yield (E : Env) (d : Int) (w : World) :
    ∃ rest, (usertrapTail E d w).2.trace = w.trace ++ rest ∧
      (rest = [Event.exit (-1)] ∨
       (d = 2 ∧ ∃ r2, rest = Event.yield :: Event.usertrapret :: r2 ∧ Event.yield ∉ r2 ∧
          Event.usertrapret ∉ r2) ∨
       (d ≠ 2 ∧ ∃ r2, rest = Event.usertrapret :: r2 ∧ Event.yield ∉ r2 ∧
          Event.usertrapret ∉ r2)) := by
  unfold usertrapTail
  by_cases hk : w.h.p.killed ≠ 0
  · rw [if_pos hk]
    exact ⟨[Event.exit (-1)], rfl, Or.inl rfl⟩
  · rw [if_neg hk]
    by_cases hd : d = 2
    · obtain ⟨r2, h1, h2, h3⟩ := usertrapret_trace_head E (w.call E.yield Event.yield)
      refine ⟨Event.yield :: Event.usertrapret :: r2, ?_, Or.inr (Or.inl ⟨hd, r2, rfl, h2, h3⟩)⟩
      rw [if_pos hd, h1]
      simp [World.call]
    · obtain ⟨r2, h1, h2, h3⟩ := usertrapret_trace_head E w
      refine ⟨Event.usertrapret :: r2, ?_, Or.inr (Or.inr ⟨hd, r2, rfl, h2, h3⟩)⟩
      rw [if_neg hd, h1]

/-! ## Double free -/

/-- C19 (double free is not detected). On the three-frame machine, from the state `kinit`
leaves, `kalloc` hands out frame 12288. Two `kfree(12288)` in a row do not panic; after
them the link of the frame points to the frame itself, the next two `kalloc` calls both
return 12288, and the list head left is `0x0505050505050505`, which is no frame: the free
list is no longer a chain of the frames `kinit` registered. -/
theorem double_free_undetected :
    kinit sampleLayout 8 (emptyKmem zeroMem) =
      some ([4096, 8192, 12288], Run.done sampleKmem) ∧
    (kalloc sampleKmem).1 = 12288 ∧ isFrame sampleLayout 12288 ∧
    ∃ k2 k3, kfree sampleLayout 12288 (kalloc sampleKmem).2 = Run.done k2 ∧
      kfree sampleLayout 12288 k2 = Run.done k3 ∧
      load64 k3.mem 12288 = 12288 ∧
      (kalloc k3).1 = 12288 ∧ (kalloc (kalloc k3).2).1 = 12288 ∧
      (kalloc (kalloc k3).2).2.freelist = 0x0505050505050505 ∧
      ¬ isFrame sampleLayout 0x0505050505050505 ∧
      ¬ ∃ l, Chain (kalloc (kalloc k3).2).2.mem (kalloc (kalloc k3).2).2.freelist l ∧
        ∀ a, a ∈ l → a ∈ [4096, 8192, 12288] := by
  refine ⟨rfl, by decide, by decide, _, _, rfl, rfl, by decide, by decide, by decide,
    by decide, by decide, ?_⟩
  rintro ⟨l, hc, hl⟩
  have hfl : (kalloc (kalloc (kfreeLink 12288 (kfreeFill 12288 (kfreeLink 12288
      (kfreeFill 12288 (kalloc sampleKmem).2))))).2).2.freelist = 0x0505050505050505 := by
    decide
  rw [hfl] at hc
  cases l with
  | nil =>
    have h0 : (0x0505050505050505 : Nat) = 0 := hc
    exact absurd h0 (by decide)
  | cons a t =>
    have ha : (0x0505050505050505 : Nat) = a := hc.2.1
    have hm := hl a (List.mem_cons_self a t)
    rw [← ha] at hm
    exact absurd hm (by decide)

/-! ## `printint` -/

theorem digits_get (d : Nat) (hd : d < 16) : digits.get? d = some (Nat.digitChar d) := by
  interval_cases d <;> rfl

theorem digitsMSF_reverse (b x : Nat) (hb : 2 ≤ b) :
    (digitsMSF b x).reverse =
      Nat.digitChar (x % b) :: (if x / b = 0 then [] else (digitsMSF b (x / b)).reverse) := by
  unfold digitsMSF
  by_cases hx : x = 0
  · subst hx
    simp
    rfl
  · rw [if_neg hx, Nat.digits_def' (by omega) (Nat.pos_of_ne_zero hx)]
    by_cases hq : x / b = 0
    · simp [hq]
    · simp [hq]

theorem printintLoop_spec (base : Nat) (hb2 : 2 ≤ base) (hb16 : base ≤ 16) :
    ∀ (n fuel x : Nat) (buf : List Char), x < base ^ n → 0 < n → n ≤ fuel →
      buf.length + n ≤ 16 →
      printintLoop base fuel x buf = Except.ok (buf ++ (digitsMSF base x).reverse) ∧
        (digitsMSF base x).length ≤ n := by
  intro n
  induction n with
  | zero =>
    intro fuel x buf _ h0
    exact absurd h0 (Nat.lt_irrefl 0)
  | succ n ih =>
    intro fuel x buf hx _ hf hlen
    cases fuel with
    | zero => omega
    | succ f =>
      have hb0 : base ≠ 0 := by omega
      have hd : x % base < 16 := Nat.lt_of_lt_of_le (Nat.mod_lt x (by omega)) hb16
      have hput : bufPut buf (Nat.digitChar (x % base)) =
          Except.ok (buf ++ [Nat.digitChar (x % base)]) := by
        unfold bufPut
        rw [if_pos (by omega)]
      have hrev := digitsMSF_reverse base x hb2
      have hlenrev : (digitsMSF base x).length = (digitsMSF base x).reverse.length := by simp
      rw [printintLoop, if_neg hb0, digits_get _ hd]
      simp only [hput]
      by_cases hq : x / base = 0
      · rw [if_neg (not_not.mpr hq)]
        rw [if_pos hq] at hrev
        rw [hlenrev, hrev]
        exact ⟨rfl, by simp⟩
      · rw [if_pos hq]
        rw [if_neg hq] at hrev
        have hq1 : x / base < base ^ n := by
          apply Nat.div_lt_of_lt_mul
          rw [← Nat.pow_succ']
          exact hx
        have hn : 0 < n := by
          rcases Nat.eq_zero_or_pos n with h | h
          · subst h
            simp at hq1
            exact absurd hq1 hq
          · exact h
        obtain ⟨h1, h2⟩ := ih f (x / base) (buf ++ [Nat.digitChar (x % base)]) hq1 hn
          (by omega) (by simp; omega)
        rw [h1, hlenrev, hrev]
        refine ⟨by simp, ?_⟩
        simp
        exact h2

theorem digitsMSF_head (b n : Nat) (hb : 2 ≤ b) (hn : n ≠ 0) :
    ∃ d r, digitsMSF b n = Nat.digitChar d :: r ∧ 0 < d ∧ d < b := by
  have hne : Nat.digits b n ≠ [] := Nat.digits_ne_nil_iff_ne_zero.mpr hn
  have hlast := Nat.getLast_digit_ne_zero b hn
  have hmem : (Nat.digits b n).getLast hne ∈ Nat.digits b n := List.getLast_mem hne
  have hlt := Nat.digits_lt_base (by omega) hmem
  refine ⟨(Nat.digits b n).getLast hne, ((Nat.digits b n).dropLast.reverse).map Nat.digitChar,
    ?_, Nat.pos_of_ne_zero hlast, hlt⟩
  unfold digitsMSF
  rw [if_neg hn]
  conv_lhs => rw [← List.dropLast_append_getLast hne]
  simp

/-- C20 (integer formatting). For every 32-bit `int` `xx`, base 10 or 16 and `sign = 1`,
`printint` hands `consputc` exactly the signed representation of `xx` in that base: a
`-` when `xx < 0`, then the digits of the magnitude of `xx` (2147483648 for `INT_MIN`),
lower-case, most significant first, starting with a non-zero digit unless `xx = 0`, which
prints as a single `0`. At most 11 characters go through the 16-byte buffer, and no
buffer or digit index is out of bounds (the result is not a fault), for any fuel from 10
on. -/
theorem printint_signed_repr (xx : Int) (b fuel : Nat) (hlo : -2 ^ 31 ≤ xx) (hhi : xx < 2 ^ 31)
    (hb : b = 10 ∨ b = 16) (hf : 10 ≤ fuel) :
    printint fuel xx (b : Int) 1 = Except.ok (signedRepr b xx) ∧
      (signedRepr b xx).length ≤ 11 ∧
      (xx = 0 → signedRepr b xx = ['0']) ∧
      (xx ≠ 0 → ∃ d r, signedRepr b xx =
        (if xx < 0 then ['-'] else []) ++ Nat.digitChar d :: r ∧ 0 < d ∧ d < b) := by
  have hshape : (xx = 0 → signedRepr b xx = ['0']) ∧
      (xx ≠ 0 → ∃ d r, signedRepr b xx =
        (if xx < 0 then ['-'] else []) ++ Nat.digitChar d :: r ∧ 0 < d ∧ d < b) := by
    constructor
    · intro h0
      subst h0
      simp [signedRepr, digitsMSF]
    · intro hne
      obtain ⟨d, r, h1, h2, h3⟩ := digitsMSF_head b xx.natAbs (by omega)
        (Int.natAbs_ne_zero.mpr hne)
      exact ⟨d, r, by rw [signedRepr, h1], h2, h3⟩
  suffices hmain : printint fuel xx (b : Int) 1 = Except.ok (signedRepr b xx) ∧
      (signedRepr b xx).length ≤ 11 from ⟨hmain.1, hmain.2, hshape⟩
  clear hshape
  have hbase : toU32 (b : Int) = b := by
    unfold toU32
    omega
  have hb2 : 2 ≤ b := by omega
  have hb16 : b ≤ 16 := by omega
  have hpow : (2 : Nat) ^ 32 ≤ b ^ 10 := by
    rcases hb with rfl | rfl <;> decide
  have hone : (1 : Int) ≠ 0 := by decide
  by_cases hneg : xx < 0
  · have hx : toU32 (toInt32 (-xx)) = xx.natAbs := by
      unfold toU32 toInt32
      omega
    obtain ⟨h1, h2⟩ := printintLoop_spec b hb2 hb16 10 fuel xx.natAbs []
      (by omega) (by decide) hf (by decide)
    have hput : bufPut (digitsMSF b xx.natAbs).reverse '-' =
        Except.ok ((digitsMSF b xx.natAbs).reverse ++ ['-']) := by
      unfold bufPut
      rw [if_pos (by simp; omega)]
    constructor
    · unfold printint
      simp only [hone, hneg, ne_eq, not_false_eq_true, if_true, and_self, hbase, hx, h1,
        List.nil_append, hput]
      simp [signedRepr, hneg]
    · simp [signedRepr, hneg]
      omega
  · have hx : toU32 xx = xx.natAbs := by
      unfold toU32
      omega
    obtain ⟨h1, h2⟩ := printintLoop_spec b hb2 hb16 10 fuel xx.natAbs []
      (by omega) (by decide) hf (by decide)
    constructor
    · unfold printint
      simp only [hone, hneg, ne_eq, not_false_eq_true, if_true, if_false, not_true_eq_false,
        and_false, hbase, hx, h1, List.nil_append]
      simp [signedRepr, hneg]
    · simp [signedRepr, hneg]
      omega

theorem signedRepr_int_min :
    signedRepr 10 (-2147483648) = ['-', '2', '1', '4', '7', '4', '8', '3', '6', '4', '8'] := by
  norm_num [signedRepr, digitsMSF]
  decide

theorem signedRepr_hex : signedRepr 16 (-255) = ['-', 'f', 'f'] := by
  norm_num [signedRepr, digitsMSF]
  decide

/-- Witness of C20: `INT_MIN` in base 10. -/
theorem printint_signed_repr_witness :
    (-2 ^ 31 ≤ (-2147483648 : Int) ∧ (-2147483648 : Int) < 2 ^ 31 ∧
      ((10 : Nat) = 10 ∨ (10 : Nat) = 16) ∧ 10 ≤ 10) ∧
    (printint 10 (-2147483648) ((10 : Nat) : Int) 1 = Except.ok (signedRepr 10 (-2147483648)) ∧
      (signedRepr 10 (-2147483648)).length ≤ 11 ∧
      ((-2147483648 : Int) = 0 → signedRepr 10 (-2147483648) = ['0']) ∧
      ((-2147483648 : Int) ≠ 0 → ∃ d r, signedRepr 10 (-2147483648) =
        (if (-2147483648 : Int) < 0 then ['-'] else []) ++ Nat.digitChar d :: r ∧
          0 < d ∧ d < 10)) :=
  ⟨⟨by decide, by decide, Or.inl rfl, Nat.le_refl 10⟩,
    printint_signed_repr (-2147483648) 10 10 (by decide) (by decide) (Or.inl rfl)
      (Nat.le_refl 10)⟩

/-! ## Which paths of `usertrap` yield -/

theorem usertrap_call_eq (E : Env) (w : World) (hu : w.h.sstatus &&& SSTATUS_SPP = 0)
    (hp : w.h.curproc = true) (hs : w.h.scause = 8) (hk : w.h.p.killed = 0) :
    usertrap E w =
      match E.syscall (usertrapCalling E w).h with
      | none => (Outcome.noreturn, (usertrapCalling E w).emit Event.syscall)
      | some h1 => usertrapTail E 0
          { h := h1, trace := (usertrapCalling E w).trace ++ [Event.syscall] } := by
  have hp1 : ¬ (w.w_stvec E.kernelvec).h.curproc = false := by
    simp [World.w_stvec, hp]
  have hs1 : ((w.w_stvec E.kernelvec).tfStore TfField.epc
      (w.w_stvec E.kernelvec).h.sepc).h.scause = 8 := hs
  have hk1 : ¬ ((w.w_stvec E.kernelvec).tfStore TfField.epc
      (w.w_stvec E.kernelvec).h.sepc).h.p.killed ≠ 0 := not_not.mpr hk
  unfold usertrap
  rw [if_neg (not_not.mpr hu)]
  simp only []
  rw [if_neg hp1, if_pos hs1, if_neg hk1]
  rfl

theorem usertrapCalling_trace (E : Env) (w : World) :
    (usertrapCalling E w).trace = w.trace ++ [Event.w_stvec E.kernelvec,
      Event.tfStore TfField.epc w.h.sepc, Event.tfStore TfField.epc (add64 w.h.sepc 4),
      Event.intr_on] := by
  simp [usertrapCalling, usertrapSaved, World.w_stvec, World.tfStore, World.intr_on]

theorem usertrapTail_shape (E : Env) (d : Int) (w : World) :
    (w.h.p.killed ≠ 0 ∧ (usertrapTail E d w).2.trace = w.trace ++ [Event.exit (-1)]) ∨
    (w.h.p.killed = 0 ∧ d = 2 ∧
      ∃ r2, (usertrapTail E d w).2.trace = w.trace ++ Event.yield :: Event.usertrapret :: r2 ∧
        Event.yield ∉ r2 ∧ Event.usertrapret ∉ r2) ∨
    (w.h.p.killed = 0 ∧ d ≠ 2 ∧
      ∃ r2, (usertrapTail E d w).2.trace = w.trace ++ Event.usertrapret :: r2 ∧
        Event.yield ∉ r2 ∧ Event.usertrapret ∉ r2) := by
  unfold usertrapTail
  by_cases hk : w.h.p.killed ≠ 0
  · rw [if_pos hk]
    exact Or.inl ⟨hk, rfl⟩
  · rw [if_neg hk]
    have hk0 : w.h.p.killed = 0 := not_not.mp hk
    by_cases hd : d = 2
    · obtain ⟨r2, h1, h2, h3⟩ := usertrapret_trace_head E (w.call E.yield Event.yield)
      refine Or.inr (Or.inl ⟨hk0, hd, r2, ?_, h2, h3⟩)
      rw [if_pos hd, h1]
      simp [World.call]
    · obtain ⟨r2, h1, h2, h3⟩ := usertrapret_trace_head E w
      refine Or.inr (Or.inr ⟨hk0, hd, r2, ?_, h2, h3⟩)
      rw [if_neg hd, h1]

theorem usertrapTimer_reaches (E : Env) (w : World) (h : usertrapTimer E w) :
    usertrapReaches E w :=
  ⟨h.1, h.2.1, Or.inr ⟨h.2.2.1, by rw [h.2.2.2.1]; decide, h.2.2.2.2⟩⟩

theorem usertrap_events (E : Env) (w : World) :
    ∃ pre, Event.yield ∉ pre ∧ Event.usertrapret ∉ pre ∧
      ((¬ usertrapReaches E w ∧ (usertrap E w).2.trace = w.trace ++ pre) ∨
       (usertrapTimer E w ∧ ∃ r2, (usertrap E w).2.trace =
          w.trace ++ (pre ++ Event.yield :: Event.usertrapret :: r2) ∧
          Event.yield ∉ r2 ∧ Event.usertrapret ∉ r2) ∨
       (usertrapReaches E w ∧ ¬ usertrapTimer E w ∧ ∃ r2, (usertrap E w).2.trace =
          w.trace ++ (pre ++ Event.usertrapret :: r2) ∧
          Event.yield ∉ r2 ∧ Event.usertrapret ∉ r2)) := by
  by_cases hu : w.h.sstatus &&& SSTATUS_SPP = 0
  · have hb : w.h.sstatus.testBit 8 = false := (spp_clear_iff _).mp hu
    by_cases hp : w.h.curproc = true
    · by_cases hs : w.h.scause = 8
      · have hnT : ¬ usertrapTimer E w := fun h => h.2.2.1 hs
        by_cases hk : w.h.p.killed = 0
        · have key := usertrap_call_eq E w hu hp hs hk
          cases hsys : E.syscall (usertrapCalling E w).h with
          | none =>
            rw [hsys] at key
            refine ⟨[Event.w_stvec E.kernelvec, Event.tfStore TfField.epc w.h.sepc,
              Event.tfStore TfField.epc (add64 w.h.sepc 4), Event.intr_on, Event.syscall],
              by simp, by simp, Or.inl ⟨?_, ?_⟩⟩
            · rintro ⟨_, _, ⟨_, _, h1, hh, _⟩ | ⟨hne, _⟩⟩
              · rw [hsys] at hh
                cases hh
              · exact hne hs
            · rw [key]
              simp [World.emit, usertrapCalling_trace]
          | some h1 =>
            rw [hsys] at key
            have htr0 : ({ h := h1, trace := (usertrapCalling E w).trace ++ [Event.syscall] } :
                World).trace = w.trace ++ [Event.w_stvec E.kernelvec,
                  Event.tfStore TfField.epc w.h.sepc,
                  Event.tfStore TfField.epc (add64 w.h.sepc 4), Event.intr_on,
                  Event.syscall] := by
              simp [usertrapCalling_trace]
            rcases usertrapTail_shape E 0
                { h := h1, trace := (usertrapCalling E w).trace ++ [Event.syscall] } with
              ⟨hk1, ht⟩ | ⟨_, hd, _⟩ | ⟨hk1, _, r2, ht, hy, hr⟩
            · refine ⟨[Event.w_stvec E.kernelvec, Event.tfStore TfField.epc w.h.sepc,
                Event.tfStore TfField.epc (add64 w.h.sepc 4), Event.intr_on, Event.syscall,
                Event.exit (-1)], by simp, by simp, Or.inl ⟨?_, ?_⟩⟩
              · rintro ⟨_, _, ⟨_, _, h2, hh, hk2⟩ | ⟨hne, _⟩⟩
                · rw [hsys] at hh
                  cases hh
                  exact hk1 hk2
                · exact hne hs
              · rw [key, ht, htr0]
                simp
            · exact absurd hd (by decide)
            · refine ⟨[Event.w_stvec E.kernelvec, Event.tfStore TfField.epc w.h.sepc,
                Event.tfStore TfField.epc (add64 w.h.sepc 4), Event.intr_on, Event.syscall],
                by simp, by simp,
                Or.inr (Or.inr ⟨⟨hb, hp, Or.inl ⟨hs, hk, h1, hsys, hk1⟩⟩, hnT, r2, ?_, hy, hr⟩)⟩
              rw [key, ht, htr0]
              simp
        · refine ⟨[Event.w_stvec E.kernelvec, Event.tfStore TfField.epc w.h.sepc,
            Event.exit (-1)], by simp, by simp, Or.inl ⟨?_, ?_⟩⟩
          · rintro ⟨_, _, ⟨_, hk0, _⟩ | ⟨hne, _⟩⟩
            · exact hk hk0
            · exact hne hs
          · rw [usertrap_killed_eq E w hu hp hs hk]
            simp [World.emit, usertrapSaved_trace]
      · obtain ⟨evs, he, hy, hr, _⟩ := devintr_trace E (usertrapSaved E w)
        have hfst : (devintr E (usertrapSaved E w)).1 = (devintr E w).1 :=
          devintr_fst_congr E w (usertrapSaved E w) rfl
        have heq := usertrap_dev_eq E w hu hp hs
        by_cases hd : (devintr E (usertrapSaved E w)).1 ≠ 0
        · rw [if_pos hd] at heq
          have htr0 : (devintr E (usertrapSaved E w)).2.trace =
              w.trace ++ (Event.w_stvec E.kernelvec :: Event.tfStore TfField.epc w.h.sepc ::
                evs) := by
            rw [he, usertrapSaved_trace]
            simp
          rcases usertrapTail_shape E (devintr E (usertrapSaved E w)).1
              (devintr E (usertrapSaved E w)).2 with
            ⟨hk1, ht⟩ | ⟨hk1, hd2, r2, ht, hy2, hr2⟩ | ⟨hk1, hd2, r2, ht, hy2, hr2⟩
          · refine ⟨Event.w_stvec E.kernelvec :: Event.tfStore TfField.epc w.h.sepc ::
              (evs ++ [Event.exit (-1)]), by simp [hy], by simp [hr], Or.inl ⟨?_, ?_⟩⟩
            · rintro ⟨_, _, ⟨h8, _⟩ | ⟨_, _, hk0⟩⟩
              · exact hs h8
              · exact hk1 hk0
            · rw [heq, ht, htr0]
              simp
          · refine ⟨Event.w_stvec E.kernelvec :: Event.tfStore TfField.epc w.h.sepc :: evs,
              by simp [hy], by simp [hr],
              Or.inr (Or.inl ⟨⟨hb, hp, hs, by rw [← hfst]; exact hd2, hk1⟩, r2, ?_, hy2, hr2⟩)⟩
            rw [heq, ht, htr0]
            simp
          · refine ⟨Event.w_stvec E.kernelvec :: Event.tfStore TfField.epc w.h.sepc :: evs,
              by simp [hy], by simp [hr],
              Or.inr (Or.inr ⟨⟨hb, hp, Or.inr ⟨hs, by rw [← hfst]; exact hd, hk1⟩⟩,
                fun h => hd2 (by rw [hfst]; exact h.2.2.2.1), r2, ?_, hy2, hr2⟩)⟩
            rw [heq, ht, htr0]
            simp
        · rw [if_neg hd] at heq
          have hd0 : (devintr E w).1 = 0 := by
            rw [← hfst]
            exact not_not.mp hd
          have hk1 : (usertrapReported (devintr E (usertrapSaved E w)).2).h.p.killed ≠ 0 := by
            simp [usertrapReported, World.setKilled, World.emit]
          rcases usertrapTail_shape E (devintr E (usertrapSaved E w)).1
              (usertrapReported (devintr E (usertrapSaved E w)).2) with
            ⟨_, ht⟩ | ⟨hk0, _⟩ | ⟨hk0, _⟩
          · refine ⟨Event.w_stvec E.kernelvec :: Event.tfStore TfField.epc w.h.sepc ::
              (evs ++ [Event.printf "usertrap(): unexpected scause %p pid=%d\n"
                  [((devintr E (usertrapSaved E w)).2.h.scause : Int),
                    (devintr E (usertrapSaved E w)).2.h.p.pid],
                Event.printf "            sepc=%p stval=%p\n"
                  [((devintr E (usertrapSaved E w)).2.h.sepc : Int),
                    ((devintr E (usertrapSaved E w)).2.h.stval : Int)],
                Event.setKilled 1, Event.exit (-1)]), by simp [hy], by simp [hr],
              Or.inl ⟨?_, ?_⟩⟩
            · rintro ⟨_, _, ⟨h8, _⟩ | ⟨_, hne, _⟩⟩
              · exact hs h8
              · exact hne hd0
            · rw [heq, ht, usertrapReported_trace, he, usertrapSaved_trace]
              simp
          · exact absurd hk0 hk1
          · exact absurd hk0 hk1
    · have hp0 : w.h.curproc = false := by simpa using hp
      refine ⟨[Event.w_stvec E.kernelvec], by simp, by simp, Or.inl ⟨fun h => hp h.2.1, ?_⟩⟩
      rw [usertrap_noproc_eq E w hu hp0]
      rfl
  · have hb : w.h.sstatus.testBit 8 = true := (spp_set_iff _).mp hu
    refine ⟨[], by simp, by simp, Or.inl ⟨fun h => ?_, ?_⟩⟩
    · have h1 := h.1
      rw [hb] at h1
      exact absurd h1 (by decide)
    · rw [usertrap_panic_eq E w hu]
      simp

theorem kerneltrap_events (E : Env) (w : World) :
    ∃ new, (kerneltrap E w).2.trace = w.trace ++ new ∧
      new.count Event.yield =
        (if w.h.sstatus.testBit 8 = true ∧ intr_get w.h = false ∧ (devintr E w).1 = 2 ∧
            (devintr E w).2.h.curproc = true ∧ (devintr E w).2.h.p.state = procstate.RUNNING
          then 1 else 0) := by
  by_cases h1 : w.h.sstatus &&& SSTATUS_SPP = 0
  · rw [kerneltrap_user_eq E w h1]
    have hb := (spp_clear_iff _).mp h1
    refine ⟨[], by simp, ?_⟩
    rw [if_neg (fun h => by rw [hb] at h; exact absurd h.1 (by decide))]
    rfl
  · have hb := (spp_set_iff _).mp h1
    by_cases h2 : intr_get w.h = true
    · rw [kerneltrap_intr_eq E w h1 h2]
      refine ⟨[], by simp, ?_⟩
      rw [if_neg (fun h => by rw [h2] at h; exact absurd h.2.1 (by decide))]
      rfl
    · have h2f : intr_get w.h = false := by simpa using h2
      by_cases h3 : (devintr E w).1 = 0
      · rw [kerneltrap_unknown_eq E w h1 h2f h3]
        refine ⟨[Event.printf "scause %p\n" [(w.h.scause : Int)],
          Event.printf "sepc=%p stval=%p\n" [(w.h.sepc : Int), (w.h.stval : Int)]],
          by simp [World.emit], ?_⟩
        rw [if_neg (fun h => by rw [h3] at h; exact absurd h.2.2.1 (by decide))]
        simp
      · obtain ⟨evs, he, hy, _⟩ := devintr_trace E w
        rw [kerneltrap_run_eq E w h1 h2f h3]
        by_cases hc : (devintr E w).1 = 2 ∧ (devintr E w).2.h.curproc = true ∧
            (devintr E w).2.h.p.state = procstate.RUNNING
        · refine ⟨evs ++ [Event.yield, Event.w_sepc w.h.sepc, Event.w_sstatus w.h.sstatus], ?_, ?_⟩
          · rw [if_pos hc]
            simp [World.w_sstatus, World.w_sepc, World.call, he]
          · rw [if_pos ⟨hb, h2f, hc⟩]
            simp [List.count_eq_zero.mpr hy]
        · refine ⟨evs ++ [Event.w_sepc w.h.sepc, Event.w_sstatus w.h.sstatus], ?_, ?_⟩
          · rw [if_neg hc]
            simp [World.w_sstatus, World.w_sepc, he]
          · rw [if_neg (fun h => hc h.2.2)]
            simp [List.count_eq_zero.mpr hy]

/-- C17 (timer yield). The actions of `usertrap` contain a call of `usertrapret` exactly
when the trap is from user mode with a current process and either it is a system call of
a process that is not killed before or after `syscall` returns, or `devintr` recognises
the cause and leaves the process not killed. On such a path `yield` is called exactly once
if `devintr` returned 2, and then it is the action right before the one call of
`usertrapret`; on every other path, and for every system call and every device interrupt
with code 1, `yield` is not called at all. In `kerneltrap`, `yield` is called exactly
once if the entry checks pass, `devintr` returned 2, and, in the state `devintr` left,
the hart has a current process in state RUNNING; and not at all otherwise. -/
theorem trap_timer_yield (E : Env) (w : World) :
    ((usertrap E w).2.trace = w.trace ++ (usertrap E w).2.trace.drop w.trace.length ∧
      (Event.usertrapret ∈ (usertrap E w).2.trace.drop w.trace.length ↔
        (w.h.sstatus.testBit 8 = false ∧ w.h.curproc = true ∧
          ((w.h.scause = 8 ∧ w.h.p.killed = 0 ∧
              ∃ h1, E.syscall (usertrapCalling E w).h = some h1 ∧ h1.p.killed = 0) ∨
            (w.h.scause ≠ 8 ∧ (devintr E w).1 ≠ 0 ∧
              (devintr E (usertrapSaved E w)).2.h.p.killed = 0)))) ∧
      ((usertrap E w).2.trace.drop w.trace.length).count Event.usertrapret ≤ 1 ∧
      ((usertrap E w).2.trace.drop w.trace.length).count Event.yield =
        (if w.h.sstatus.testBit 8 = false ∧ w.h.curproc = true ∧ w.h.scause ≠ 8 ∧
            (devintr E w).1 = 2 ∧ (devintr E (usertrapSaved E w)).2.h.p.killed = 0
          then 1 else 0) ∧
      ((w.h.sstatus.testBit 8 = false ∧ w.h.curproc = true ∧ w.h.scause ≠ 8 ∧
          (devintr E w).1 = 2 ∧ (devintr E (usertrapSaved E w)).2.h.p.killed = 0) →
        ∃ a b, (usertrap E w).2.trace.drop w.trace.length =
            a ++ Event.yield :: Event.usertrapret :: b ∧
          Event.yield ∉ a ∧ Event.yield ∉ b ∧ Event.usertrapret ∉ a ∧
          Event.usertrapret ∉ b) ∧
      ((w.h.scause = 8 ∨ (devintr E w).1 = 1) →
        Event.yield ∉ (usertrap E w).2.trace.drop w.trace.length)) ∧
    ((kerneltrap E w).2.trace = w.trace ++ (kerneltrap E w).2.trace.drop w.trace.length ∧
      ((kerneltrap E w).2.trace.drop w.trace.length).count Event.yield =
        (if w.h.sstatus.testBit 8 = true ∧ intr_get w.h = false ∧ (devintr E w).1 = 2 ∧
            (devintr E w).2.h.curproc = true ∧ (devintr E w).2.h.p.state = procstate.RUNNING
          then 1 else 0)) := by
  constructor
  · have hnoT : (w.h.scause = 8 ∨ (devintr E w).1 = 1) → ¬ usertrapTimer E w := by
      rintro (h | h) hT
      · exact hT.2.2.1 h
      · have h2 := hT.2.2.2.1
        rw [h] at h2
        exact absurd h2 (by decide)
    obtain ⟨pre, hy, hr, hcase⟩ := usertrap_events E w
    rcases hcase with ⟨hnR, htr⟩ | ⟨hT, r2, htr, hy2, hr2⟩ | ⟨hR, hnT, r2, htr, hy2, hr2⟩
    · have hnT : ¬ usertrapTimer E w := fun h => hnR (usertrapTimer_reaches E w h)
      rw [htr, List.drop_left]
      refine ⟨rfl, ⟨fun h => absurd h hr, fun h => absurd h hnR⟩, ?_, ?_,
        fun h => absurd h hnT, fun _ => hy⟩
      · rw [List.count_eq_zero.mpr hr]
        exact Nat.zero_le 1
      · rw [List.count_eq_zero.mpr hy]
        exact (if_neg hnT).symm
    · have hR := usertrapTimer_reaches E w hT
      rw [htr, List.drop_left]
      refine ⟨rfl, ⟨fun _ => hR, fun _ => by simp⟩, ?_, ?_,
        fun _ => ⟨pre, r2, rfl, hy, hy2, hr, hr2⟩, fun h => absurd hT (hnoT h)⟩
      · simp [List.count_eq_zero.mpr hr, List.count_eq_zero.mpr hr2]
      · have hc : List.count Event.yield (pre ++ Event.yield :: Event.usertrapret :: r2) = 1 := by
          simp [List.count_eq_zero.mpr hy, List.count_eq_zero.mpr hy2]
        rw [hc]
        exact (if_pos hT).symm
    · rw [htr, List.drop_left]
      refine ⟨rfl, ⟨fun _ => hR, fun _ => by simp⟩, ?_, ?_, fun h => absurd h hnT,
        fun _ => by simp [hy, hy2]⟩
      · simp [List.count_eq_zero.mpr hr, List.count_eq_zero.mpr hr2]
      · have hc : List.count Event.yield (pre ++ Event.usertrapret :: r2) = 0 := by
          simp [List.count_eq_zero.mpr hy, List.count_eq_zero.mpr hy2]
        rw [hc]
        exact (if_neg hnT).symm
  · obtain ⟨new, htr, hc⟩ := kerneltrap_events E w
    rw [htr, List.drop_left]
    exact ⟨rfl, hc⟩

/-- Witness of C17: a timer interrupt in the sample process, which yields once and
returns to user space. -/
theorem trap_timer_yield_witness :
    ((sampleWorld 9223372036854775809).h.sstatus.testBit 8 = false ∧
      (sampleWorld 9223372036854775809).h.curproc = true ∧
      (sampleWorld 9223372036854775809).h.scause ≠ 8 ∧
      (devintr (sampleEnv 0) (sampleWorld 9223372036854775809)).1 = 2 ∧
      (devintr (sampleEnv 0)
        (usertrapSaved (sampleEnv 0) (sampleWorld 9223372036854775809))).2.h.p.killed = 0) ∧
    (∃ a b, (usertrap (sampleEnv 0) (sampleWorld 9223372036854775809)).2.trace.drop
          (sampleWorld 9223372036854775809).trace.length =
        a ++ Event.yield :: Event.usertrapret :: b ∧
      Event.yield ∉ a ∧ Event.yield ∉ b ∧ Event.usertrapret ∉ a ∧ Event.usertrapret ∉ b) :=
  ⟨⟨by decide, rfl, by decide, by decide, by decide⟩,
    (trap_timer_yield (sampleEnv 0) (sampleWorld 9223372036854775809)).1.2.2.2.2.1
      ⟨by decide, rfl, by decide, by decide, by decide⟩⟩

theorem usertrap_timer_sample :
    (usertrap (sampleEnv 0) (sampleWorld 9223372036854775809)).2.trace.count Event.yield = 1 ∧
    (usertrap (sampleEnv 0) (sampleWorld 9223372036854775809)).2.trace.count
      Event.usertrapret = 1 ∧
    (usertrap (sampleEnv 0) (sampleWorld 8)).2.trace.count Event.yield = 0 ∧
    (kerneltrap (sampleEnv 0) (sampleKernelWorld 9223372036854775809)).2.trace.count
      Event.yield = 1 := by
  decide

end Xv6
